import Mathlib

/-! Gossip handlers of `daemon/p2p_announce.c`.

A shallow embedding of the three inbound announcement handlers
(`handle_channel_announcement`, `handle_channel_update`,
`handle_node_announcement`) and of the drain task
(`process_broadcast_queue`), together with the properties the specification
states about them.

Conventions of the embedding:

* a C buffer `(const u8 *p, size_t len)` is the list of its `len` bytes;
* a `tal` allocation that is only a scratch context (`tmpctx`) has no
  counterpart: the model tracks values, not memory;
* a record reached through a pointer (`struct node *`, `struct
  node_connection *`) is the first record of the store that answers the
  lookup; writing through the pointer rewrites that record in place;
* wire primitives, hashing, signature checking and address decoding are not
  part of `p2p_announce.c`; they are the fields of `wire_env`, and every
  theorem holds for all of them.
-/

namespace P2PAnnounce

/-! ## Data model -/

/-- Byte strings: `u8 *` buffers with their `tal_count`. -/
abbrev bytes := List Nat

/-- The `struct channel_id` of the source: block height, transaction index, output index. -/
structure channel_id where
  blocknum : Nat
  txnum : Nat
  outnum : Nat
deriving DecidableEq, Repr

/-- The `struct pubkey` of the source: an identity key, kept abstract. -/
structure pubkey where
  key : Nat
deriving DecidableEq, Repr

/-- The `secp256k1_ecdsa_signature` of the source, kept abstract. -/
structure secp256k1_ecdsa_signature where
  data : bytes
deriving DecidableEq, Repr

/-- The `struct sha256_double` of the source: result of the double hash. -/
structure sha256_double where
  sha : bytes
deriving DecidableEq, Repr

/-- The three gossip members of `enum wire_type` that the file uses. -/
inductive wire_type where
  | WIRE_CHANNEL_ANNOUNCEMENT
  | WIRE_NODE_ANNOUNCEMENT
  | WIRE_CHANNEL_UPDATE
deriving DecidableEq, Repr

open wire_type

/-- The `struct node` of the source (fields the handlers read or write). -/
structure node where
  id : pubkey
  last_timestamp : Nat
  hostname : Option bytes
  port : Nat
  rgb_color : bytes
  node_announcement : Option bytes
deriving DecidableEq, Repr

/-- The `struct node_connection` of the source: one directed channel edge. -/
structure node_connection where
  src : pubkey
  dst : pubkey
  channel_id : channel_id
  flags : Nat
  last_timestamp : Nat
  delay : Nat
  htlc_minimum_msat : Nat
  base_fee : Nat
  proportional_fee : Nat
  active : Bool
  channel_announcement : Option bytes
  channel_update : Option bytes
deriving DecidableEq, Repr

/-- The `struct queued_message` of the source: type, dedup tag, payload. -/
structure queued_message where
  type : wire_type
  tag : bytes
  payload : bytes
deriving DecidableEq, Repr

/-- Modelled from the spec: the broadcast log (`struct broadcast_state`, declared in
`daemon/broadcast.h`, not in this file). An append-only vector of slots; the
position of a slot is its index; a superseded slot is overwritten with `none`,
never deleted, so positions only grow. -/
structure broadcast_state where
  log : List (Option queued_message)
deriving DecidableEq, Repr

/-- The `struct routing_state` of the source: topology store and broadcast log. -/
structure routing_state where
  nodes : List node
  connections : List node_connection
  broadcasts : broadcast_state
deriving DecidableEq, Repr

/-- Output parameters of `fromwire_channel_announcement`. -/
structure channel_announcement_msg where
  node_signature_1 : secp256k1_ecdsa_signature
  node_signature_2 : secp256k1_ecdsa_signature
  bitcoin_signature_1 : secp256k1_ecdsa_signature
  bitcoin_signature_2 : secp256k1_ecdsa_signature
  channel_id : channel_id
  node_id_1 : pubkey
  node_id_2 : pubkey
  bitcoin_key_1 : pubkey
  bitcoin_key_2 : pubkey
  features : bytes
deriving DecidableEq, Repr

/-- Output parameters of `fromwire_channel_update`. -/
structure channel_update_msg where
  signature : secp256k1_ecdsa_signature
  channel_id : channel_id
  timestamp : Nat
  flags : Nat
  expiry : Nat
  htlc_minimum_msat : Nat
  fee_base_msat : Nat
  fee_proportional_millionths : Nat
deriving DecidableEq, Repr

/-- Output parameters of `fromwire_node_announcement`. -/
structure node_announcement_msg where
  signature : secp256k1_ecdsa_signature
  timestamp : Nat
  node_id : pubkey
  rgb_color : bytes
  alias_ : bytes
  features : bytes
  addresses : bytes
deriving DecidableEq, Repr

/-- The `struct txlocator` returned by `locate_tx`. -/
structure txlocator where
  blkheight : Nat
  index : Nat
deriving DecidableEq, Repr

/-- The `peer->anchor` fields the file reads. -/
structure anchor where
  txid : bytes
  index : Nat
deriving DecidableEq, Repr

/-- The `struct peer` of the source (fields the file reads or writes); `outpkt`
is the queue that `queue_pkt_nested` appends to. -/
structure peer where
  id : pubkey
  state : Nat
  anchor : anchor
  broadcast_index : Nat
  outpkt : List (wire_type × bytes)
deriving DecidableEq, Repr

/-- The `dstate->config` fields the file reads. -/
structure config where
  min_htlc_expiry : Nat
  fee_base : Nat
  fee_per_satoshi : Nat
deriving DecidableEq, Repr

/-- The `struct lightningd_state` of the source (fields the file reads or writes). -/
structure lightningd_state where
  id : pubkey
  external_ip : Option bytes
  portnum : Nat
  config : config
  peers : List peer
  rstate : routing_state
deriving DecidableEq, Repr

/-- The functions that `p2p_announce.c` calls and that are defined outside the
gossip core (wire codecs, hashing, signatures, address codec, chain lookup, peer
state test). Each parser returns its output parameters, or `none` where the C
function returns `false`. -/
structure wire_env where
  fromwire_channel_announcement : bytes → Option channel_announcement_msg
  fromwire_channel_update : bytes → Option channel_update_msg
  fromwire_node_announcement : bytes → Option node_announcement_msg
  towire_channel_id : channel_id → bytes
  towire_pubkey : pubkey → bytes
  towire_channel_announcement :
    secp256k1_ecdsa_signature → secp256k1_ecdsa_signature →
    secp256k1_ecdsa_signature → secp256k1_ecdsa_signature →
    channel_id → pubkey → pubkey → pubkey → pubkey → bytes → bytes
  towire_channel_update :
    secp256k1_ecdsa_signature → channel_id → Nat → Nat → Nat → Nat → Nat → Nat → bytes
  towire_node_announcement :
    secp256k1_ecdsa_signature → Nat → pubkey → bytes → bytes → bytes → bytes → bytes
  sha256_double : bytes → P2PAnnounce.sha256_double
  check_signed_hash : P2PAnnounce.sha256_double → secp256k1_ecdsa_signature → pubkey → Bool
  privkey_sign : pubkey → bytes → secp256k1_ecdsa_signature
  pubkey_cmp : pubkey → pubkey → Int
  read_ip : bytes → Option (bytes × Nat)
  write_ip : bytes → Nat → bytes
  locate_tx : bytes → txlocator
  state_is_normal : Nat → Bool

/-! ## Topology store -/

/-- Rewrites in place the first element that satisfies `p`: the effect of writing
through the pointer that a first-match lookup returned. -/
def update_first {α : Type} (p : α → Bool) (f : α → α) : List α → List α
  | [] => []
  | x :: xs => if p x then f x :: xs else x :: update_first p f xs

/-- Modelled from the spec: `get_node` of `daemon/routing.c` (not in this file),
"lookup without creation". -/
def get_node (rstate : routing_state) (id : pubkey) : Option node :=
  rstate.nodes.find? (fun n => decide (n.id = id))

/-- Modelled from the spec: `get_or_create_node`, "idempotent; returns existing
record or creates a bare one". A bare record has timestamp 0, no address and no
stored announcement. -/
def get_or_create_node (rstate : routing_state) (id : pubkey) : routing_state :=
  match get_node rstate id with
  | some _ => rstate
  | none =>
    { rstate with
      nodes := rstate.nodes ++
        [{ id := id, last_timestamp := 0, hostname := none, port := 0,
           rgb_color := [0, 0, 0], node_announcement := none }] }

/-- Modelled from the spec: `get_connection_by_cid` (`get_edge` in the spec) of
`daemon/routing.c`, lookup of the edge of a channel reference whose direction
bit (bit 0 of its flags) is `direction`. -/
def get_connection_by_cid (rstate : routing_state) (chanid : channel_id)
    (direction : Nat) : Option node_connection :=
  rstate.connections.find?
    (fun c => decide (c.channel_id = chanid) && decide (c.flags &&& 1 = direction))

/-- Modelled from the spec: `add_channel_direction` of `daemon/routing.c`, "creates
the directed edge if absent; returns whether this call caused a state change";
the two node records are created lazily when the edge first references them.
A new edge has timestamp 0 ("never"), is inactive and has no stored update. -/
def add_channel_direction (rstate : routing_state) (src dst : pubkey)
    (direction : Nat) (chanid : channel_id) (announcement : bytes) :
    routing_state × Bool :=
  match get_connection_by_cid rstate chanid direction with
  | some _ => (rstate, false)
  | none =>
    let r := get_or_create_node (get_or_create_node rstate src) dst
    ({ r with
       connections := r.connections ++
         [{ src := src, dst := dst, channel_id := chanid, flags := direction,
            last_timestamp := 0, delay := 0, htlc_minimum_msat := 0,
            base_fee := 0, proportional_fee := 0, active := false,
            channel_announcement := some announcement,
            channel_update := none }] }, true)

/-! ## Broadcast log -/

/-- Retires a slot when it holds a message of the given type and dedup tag. -/
def retire (type : wire_type) (tag : bytes) : Option queued_message → Option queued_message
  | none => none
  | some m => if m.type = type ∧ m.tag = tag then none else some m

/-- Modelled from the spec: `queue_broadcast` of `daemon/broadcast.c` (`enqueue` in
the spec), "appends a new entry"; an earlier entry of the same type and dedup
key is superseded, its slot stays. -/
def queue_broadcast (bstate : broadcast_state) (type : wire_type) (tag : bytes)
    (payload : bytes) : broadcast_state :=
  { log := bstate.log.map (retire type tag) ++
      [some { type := type, tag := tag, payload := payload }] }

/-- First live slot of a log suffix that starts at position `i`, with the position
that follows it. -/
def first_live : List (Option queued_message) → Nat → Option (queued_message × Nat)
  | [], _ => none
  | some m :: _, i => some (m, i + 1)
  | none :: rest, i => first_live rest (i + 1)

/-- Modelled from the spec: `next_broadcast_message` of `daemon/broadcast.c`
(`next_after` in the spec), "returns the next not-yet-delivered entry for a
given peer cursor in log order, or none if the cursor is current". The second
component is the value written back to `*last_index`. -/
def next_broadcast_message (bstate : broadcast_state) (last_index : Nat) :
    Option (queued_message × Nat) :=
  first_live (bstate.log.drop last_index) last_index

/-! ## Inbound handlers -/

/-- Embedding of `handle_channel_announcement` (lines 16-76). -/
def handle_channel_announcement (env : wire_env) (rstate : routing_state)
    (announce : bytes) : routing_state :=
  let serialized := announce
  match env.fromwire_channel_announcement serialized with
  | none => rstate
  | some m =>
    let forward := false
    let r1 := add_channel_direction rstate m.node_id_1 m.node_id_2 0 m.channel_id serialized
    let forward := forward || r1.2
    let r2 := add_channel_direction r1.1 m.node_id_2 m.node_id_1 1 m.channel_id serialized
    let forward := forward || r2.2
    if !forward then r2.1
    else
      let tag := [] ++ env.towire_channel_id m.channel_id
      { r2.1 with
        broadcasts := queue_broadcast r2.1.broadcasts WIRE_CHANNEL_ANNOUNCEMENT tag serialized }

/-- Embedding of `handle_channel_update` (lines 78-149). The pointer `c` is the
first edge that answers `get_connection_by_cid`; the field writes of lines
126-131 and 147 rewrite that edge. -/
def handle_channel_update (env : wire_env) (rstate : routing_state)
    (update : bytes) : routing_state :=
  let serialized := update
  match env.fromwire_channel_update serialized with
  | none => rstate
  | some m =>
    match get_connection_by_cid rstate m.channel_id (m.flags &&& 1) with
    | none => rstate
    | some c =>
      if c.last_timestamp ≥ m.timestamp then rstate
      else
        let tag := [] ++ env.towire_channel_id m.channel_id
        { rstate with
          connections := update_first
            (fun c => decide (c.channel_id = m.channel_id) &&
              decide (c.flags &&& 1 = m.flags &&& 1))
            (fun c => { c with
              last_timestamp := m.timestamp,
              delay := m.expiry,
              htlc_minimum_msat := m.htlc_minimum_msat,
              base_fee := m.fee_base_msat,
              proportional_fee := m.fee_proportional_millionths,
              active := true,
              channel_update := some serialized })
            rstate.connections,
          broadcasts := queue_broadcast rstate.broadcasts WIRE_CHANNEL_UPDATE tag serialized }

/-- Embedding of `handle_node_announcement` (lines 151-218). The pointer `node` is
the first record that answers `get_node`. Lines 200-201 write the timestamp and
clear the hostname before `read_ip` runs; when `read_ip` fails the function
returns at line 205 with those writes in place (a failing `read_ip` is taken
to write neither `hostname` nor `port`). -/
def handle_node_announcement (env : wire_env) (rstate : routing_state)
    (node_ann : bytes) : routing_state :=
  let serialized := node_ann
  match env.fromwire_node_announcement serialized with
  | none => rstate
  | some m =>
    let hash := env.sha256_double (serialized.drop 66)
    if !env.check_signed_hash hash m.signature m.node_id then rstate
    else
      match get_node rstate m.node_id with
      | none => rstate
      | some n =>
        if n.last_timestamp ≥ m.timestamp then rstate
        else
          let is_node := fun (x : node) => decide (x.id = m.node_id)
          let rstate1 : routing_state :=
            { rstate with
              nodes := update_first is_node
                (fun x => { x with last_timestamp := m.timestamp, hostname := none })
                rstate.nodes }
          match env.read_ip m.addresses with
          | none => rstate1
          | some (host, port) =>
            let tag := [] ++ env.towire_pubkey m.node_id
            { rstate1 with
              nodes := update_first is_node
                (fun x => { x with
                  hostname := some host,
                  port := port,
                  rgb_color := m.rgb_color,
                  node_announcement := some serialized })
                rstate1.nodes,
              broadcasts :=
                queue_broadcast rstate1.broadcasts WIRE_NODE_ANNOUNCEMENT tag serialized }

/-! ## Drain task -/

/-- Modelled from the spec: `queue_pkt_nested` of `daemon/packets.c`, which queues
one outgoing packet of the given type and payload for the peer. -/
def queue_pkt_nested (p : peer) (type : wire_type) (payload : bytes) : peer :=
  { p with outpkt := p.outpkt ++ [(type, payload)] }

/-- The `while (msg != NULL)` loop of `process_broadcast_queue` (lines 414-420) for
one peer, with a bound on the number of `next_broadcast_message` calls; `none`
when the bound is reached before the loop ends. -/
def drain_peer : Nat → broadcast_state → peer → Option peer
  | 0, _, _ => none
  | fuel + 1, bstate, p =>
    match next_broadcast_message bstate p.broadcast_index with
    | none => some p
    | some (msg, idx) =>
      drain_peer fuel bstate
        (queue_pkt_nested { p with broadcast_index := idx } msg.type msg.payload)

/-- The `list_for_each` loop of `process_broadcast_queue` (lines 411-421). -/
def process_peers (env : wire_env) (fuel : Nat) (bstate : broadcast_state) :
    List peer → Option (List peer)
  | [] => some []
  | p :: ps =>
    if !env.state_is_normal p.state then
      (process_peers env fuel bstate ps).map (fun ps1 => p :: ps1)
    else
      match drain_peer fuel bstate p with
      | none => none
      | some p1 => (process_peers env fuel bstate ps).map (fun ps1 => p1 :: ps1)

/-- Embedding of `process_broadcast_queue` (lines 406-422); re-arming the timer
(line 410) has no effect on the state modelled here. -/
def process_broadcast_queue (env : wire_env) (fuel : Nat) (dstate : lightningd_state) :
    Option lightningd_state :=
  (process_peers env fuel dstate.rstate.broadcasts dstate.peers).map
    (fun ps => { dstate with peers := ps })

/-! ## What a drain delivers -/

/-- The packets of the live slots of a log from position `cursor` on, in log order. -/
def pending_packets (log : List (Option queued_message)) (cursor : Nat) :
    List (wire_type × bytes) :=
  (log.drop cursor).filterMap (fun o => o.map (fun msg => (msg.type, msg.payload)))

/-- Position that follows the last live slot of a log suffix starting at position
`i`, or `cur` when the suffix has no live slot. -/
def cursor_after_aux : List (Option queued_message) → Nat → Nat → Nat
  | [], _, cur => cur
  | none :: rest, i, cur => cursor_after_aux rest (i + 1) cur
  | some _ :: rest, i, _ => cursor_after_aux rest (i + 1) (i + 1)

/-- The cursor of a peer once every live slot from `cursor` on has been delivered. -/
def cursor_after (log : List (Option queued_message)) (cursor : Nat) : Nat :=
  cursor_after_aux (log.drop cursor) cursor cursor

/-- The peer after a complete drain: untouched when it is not in the normal state,
else with every pending packet queued and the cursor moved past them. -/
def drain_result (env : wire_env) (bstate : broadcast_state) (p : peer) : peer :=
  if !env.state_is_normal p.state then p
  else
    { p with
      broadcast_index := cursor_after bstate.log p.broadcast_index,
      outpkt := p.outpkt ++ pending_packets bstate.log p.broadcast_index }

/-- A channel_update entry of the log is filed under the serialized channel
reference of its own payload (what `handle_channel_update` does for every entry
it enqueues). -/
def tag_matches_payload (env : wire_env) (msg : queued_message) : Bool :=
  match msg.type with
  | WIRE_CHANNEL_UPDATE =>
    match env.fromwire_channel_update msg.payload with
    | some m => decide (msg.tag = env.towire_channel_id m.channel_id)
    | none => true
  | _ => true

/-- Every live channel_update entry of the log is filed under the tag of its own
payload. -/
def tags_match_payloads (env : wire_env) (bstate : broadcast_state) : Bool :=
  bstate.log.all (fun o =>
    match o with
    | none => true
    | some msg => tag_matches_payload env msg)

/-! ## Sequences of inbound messages -/

/-- One call of an inbound handler: the handler and the bytes it is given. -/
inductive inbound where
  | channel_announcement (msg : bytes)
  | channel_update (msg : bytes)
  | node_announcement (msg : bytes)
deriving DecidableEq, Repr

/-- Runs the handler that an inbound call names. -/
def submit_inbound (env : wire_env) (rstate : routing_state) : inbound → routing_state
  | .channel_announcement msg => handle_channel_announcement env rstate msg
  | .channel_update msg => handle_channel_update env rstate msg
  | .node_announcement msg => handle_node_announcement env rstate msg

/-- Runs a sequence of inbound calls, first to last. -/
def run_inbound (env : wire_env) (rstate : routing_state) (calls : List inbound) :
    routing_state :=
  calls.foldl (submit_inbound env) rstate

/-! ## Self-announcement producer

The clock (`time_now`) is read once by each `broadcast_*` function; the reading
is the parameter `now`, and one run of `announce` or `announce_channel` passes
the same reading to every call. `locate_tx` is taken to find the anchor
transaction (the source dereferences its result unchecked). Re-arming a timer
(`new_reltimer`) has no effect on the state modelled here. -/

/-- The signature that `memset(&signature, 0, sizeof(signature))` leaves. -/
def zero_signature : secp256k1_ecdsa_signature := ⟨List.replicate 64 0⟩

/-- The channel reference that `broadcast_channel_update` and
`broadcast_channel_announcement` compute for a peer (lines 229-232, 312-316). -/
def peer_channel_id (env : wire_env) (p : peer) : channel_id :=
  let loc := env.locate_tx p.anchor.txid
  { blocknum := loc.blkheight, txnum := loc.index, outnum := p.anchor.index }

/-- The flags argument of `towire_channel_update` in `broadcast_channel_update`
(lines 239, 249): the C truth value of `pubkey_cmp(&dstate->id, peer->id) > 0`. -/
def local_direction (env : wire_env) (local_id peer_id : pubkey) : Nat :=
  if env.pubkey_cmp local_id peer_id > 0 then 1 else 0

/-- The bytes that `broadcast_channel_update` enqueues (lines 226-253): serialized
with a zero signature, signed from offset 66, serialized again with the
signature in place. The timestamp is a `u32`, the expiry argument a `u16`. -/
def build_channel_update (env : wire_env) (dstate : lightningd_state) (p : peer)
    (now : Nat) : bytes :=
  let timestamp := now % 2 ^ 32
  let channel_id := peer_channel_id env p
  let signature := zero_signature
  let serialized := env.towire_channel_update signature channel_id timestamp
    (local_direction env dstate.id p.id) (dstate.config.min_htlc_expiry % 2 ^ 16) 1
    dstate.config.fee_base dstate.config.fee_per_satoshi
  let signature := env.privkey_sign dstate.id (serialized.drop 66)
  env.towire_channel_update signature channel_id timestamp
    (local_direction env dstate.id p.id) (dstate.config.min_htlc_expiry % 2 ^ 16) 1
    dstate.config.fee_base dstate.config.fee_per_satoshi

/-- Embedding of `broadcast_channel_update` (lines 220-258). -/
def broadcast_channel_update (env : wire_env) (dstate : lightningd_state) (p : peer)
    (now : Nat) : lightningd_state :=
  let serialized := build_channel_update env dstate p now
  let tag := [] ++ env.towire_channel_id (peer_channel_id env p)
  { dstate with
    rstate := { dstate.rstate with
      broadcasts := queue_broadcast dstate.rstate.broadcasts WIRE_CHANNEL_UPDATE tag
        serialized } }

/-- The first pass of `broadcast_node_announcement` (lines 277-284): the message
serialized with a zero signature, zero color, zero alias and no features. -/
def unsigned_node_announcement (env : wire_env) (dstate : lightningd_state)
    (external_ip : bytes) (now : Nat) : bytes :=
  env.towire_node_announcement zero_signature (now % 2 ^ 32) dstate.id [0, 0, 0]
    (List.replicate 32 0) [] (env.write_ip external_ip dstate.portnum)

/-- The bytes that `broadcast_node_announcement` enqueues (lines 285-291): the
first pass signed from offset 66, serialized again with the signature in
place. -/
def build_node_announcement (env : wire_env) (dstate : lightningd_state)
    (external_ip : bytes) (now : Nat) : bytes :=
  let serialized := unsigned_node_announcement env dstate external_ip now
  let signature := env.privkey_sign dstate.id (serialized.drop 66)
  env.towire_node_announcement signature (now % 2 ^ 32) dstate.id [0, 0, 0]
    (List.replicate 32 0) [] (env.write_ip external_ip dstate.portnum)

/-- Embedding of `broadcast_node_announcement` (lines 260-297). -/
def broadcast_node_announcement (env : wire_env) (dstate : lightningd_state)
    (now : Nat) : lightningd_state :=
  match dstate.external_ip with
  | none => dstate
  | some external_ip =>
    if dstate.portnum = 0 then dstate
    else
      let serialized := build_node_announcement env dstate external_ip now
      let tag := [] ++ env.towire_pubkey dstate.id
      { dstate with
        rstate := { dstate.rstate with
          broadcasts := queue_broadcast dstate.rstate.broadcasts WIRE_NODE_ANNOUNCEMENT tag
            serialized } }

/-- The if/else of `broadcast_channel_announcement` (lines 323-337): the pair
`(node_id[0], node_id[1])` and the index of the slot that holds the local
signatures. -/
def announcement_slots (env : wire_env) (local_id peer_id : pubkey) :
    (pubkey × pubkey) × Nat :=
  if env.pubkey_cmp local_id peer_id > 0 then ((peer_id, local_id), 1)
  else ((local_id, peer_id), 0)

/-- Writes a signature in slot `i` of a two-slot array. -/
def set_slot (i : Nat) (sg : secp256k1_ecdsa_signature)
    (arr : secp256k1_ecdsa_signature × secp256k1_ecdsa_signature) :
    secp256k1_ecdsa_signature × secp256k1_ecdsa_signature :=
  if i = 0 then (sg, arr.2) else (arr.1, sg)

/-- The bytes that `broadcast_channel_announcement` enqueues (lines 318-370): all
signatures zero, the local bitcoin signature over the serialized local
identity, a first serialization signed from offset 256, a second
serialization with the local node signature in place. The bitcoin keys are
the node identities. -/
def build_channel_announcement (env : wire_env) (dstate : lightningd_state) (p : peer) :
    bytes :=
  let channel_id := peer_channel_id env p
  let node_signature := (zero_signature, zero_signature)
  let bitcoin_signature := (zero_signature, zero_signature)
  let slots := announcement_slots env dstate.id p.id
  let node_id := slots.1
  let bitcoin_key := slots.1
  let mine := slots.2
  let bitcoin_signature :=
    set_slot mine (env.privkey_sign dstate.id ([] ++ env.towire_pubkey dstate.id))
      bitcoin_signature
  let serialized := env.towire_channel_announcement node_signature.1 node_signature.2
    bitcoin_signature.1 bitcoin_signature.2 channel_id node_id.1 node_id.2
    bitcoin_key.1 bitcoin_key.2 []
  let node_signature :=
    set_slot mine (env.privkey_sign dstate.id (serialized.drop 256)) node_signature
  env.towire_channel_announcement node_signature.1 node_signature.2
    bitcoin_signature.1 bitcoin_signature.2 channel_id node_id.1 node_id.2
    bitcoin_key.1 bitcoin_key.2 []

/-- Embedding of `broadcast_channel_announcement` (lines 299-376). -/
def broadcast_channel_announcement (env : wire_env) (dstate : lightningd_state)
    (p : peer) : lightningd_state :=
  let serialized := build_channel_announcement env dstate p
  let tag := [] ++ env.towire_channel_id (peer_channel_id env p)
  { dstate with
    rstate := { dstate.rstate with
      broadcasts := queue_broadcast dstate.rstate.broadcasts WIRE_CHANNEL_ANNOUNCEMENT tag
        serialized } }

/-- One iteration of the `list_for_each` loop of `announce` (lines 385-391); the
second component is `nchan`. -/
def announce_step (env : wire_env) (now : Nat) (acc : lightningd_state × Nat) (p : peer) :
    lightningd_state × Nat :=
  if env.state_is_normal p.state then
    (broadcast_channel_update env (broadcast_channel_announcement env acc.1 p) p now,
     acc.2 + 1)
  else acc

/-- Embedding of `announce` (lines 378-396). -/
def announce (env : wire_env) (dstate : lightningd_state) (now : Nat) : lightningd_state :=
  let nchan := 0
  let r := dstate.peers.foldl (announce_step env now) (dstate, nchan)
  if r.2 > 0 then broadcast_node_announcement env r.1 now else r.1

/-- Embedding of `announce_channel` (lines 398-404). -/
def announce_channel (env : wire_env) (dstate : lightningd_state) (p : peer)
    (now : Nat) : lightningd_state :=
  broadcast_node_announcement env
    (broadcast_channel_update env (broadcast_channel_announcement env dstate p) p now) now

/-- Modelled from the spec: the wire layout of node_announcement
(`towire_node_announcement` is generated wire code, not in this file). The type
tag and the 64-byte signature come first and fill bytes 0..65 ("signing from a
fixed 66-byte offset"): two serializations that differ in the signature
argument only have the same length, the same first two bytes and the same
bytes from offset 66 on. -/
def signature_field_only (env : wire_env) : Prop :=
  ∀ (sg1 sg2 : secp256k1_ecdsa_signature) (timestamp : Nat) (id : pubkey)
    (rgb alias_ features addresses : bytes),
    sg1.data.length = 64 → sg2.data.length = 64 →
    (env.towire_node_announcement sg1 timestamp id rgb alias_ features addresses).length =
      (env.towire_node_announcement sg2 timestamp id rgb alias_ features addresses).length ∧
    (env.towire_node_announcement sg1 timestamp id rgb alias_ features addresses).take 2 =
      (env.towire_node_announcement sg2 timestamp id rgb alias_ features addresses).take 2 ∧
    (env.towire_node_announcement sg1 timestamp id rgb alias_ features addresses).drop 66 =
      (env.towire_node_announcement sg2 timestamp id rgb alias_ features addresses).drop 66

/-! ## What one run of the producer enqueues, in the words of the specification -/

/-- The daemon state with its broadcast log replaced. -/
def with_broadcasts (dstate : lightningd_state) (bstate : broadcast_state) :
    lightningd_state :=
  { dstate with rstate := { dstate.rstate with broadcasts := bstate } }

/-- Enqueues a list of entries, first to last. -/
def enqueue_all (bstate : broadcast_state) (entries : List queued_message) :
    broadcast_state :=
  entries.foldl (fun b e => queue_broadcast b e.type e.tag e.payload) bstate

/-- The channel_announcement and channel_update entries of one peer's channel. -/
def channel_entries (env : wire_env) (dstate : lightningd_state) (now : Nat) (p : peer) :
    List queued_message :=
  [{ type := WIRE_CHANNEL_ANNOUNCEMENT, tag := env.towire_channel_id (peer_channel_id env p),
     payload := build_channel_announcement env dstate p },
   { type := WIRE_CHANNEL_UPDATE, tag := env.towire_channel_id (peer_channel_id env p),
     payload := build_channel_update env dstate p now }]

/-- The node_announcement entry of the local node, when an external address is
configured (external_ip present and port non-zero); nothing otherwise. -/
def node_entries (env : wire_env) (dstate : lightningd_state) (now : Nat) :
    List queued_message :=
  match dstate.external_ip with
  | none => []
  | some external_ip =>
    if dstate.portnum = 0 then []
    else
      [{ type := WIRE_NODE_ANNOUNCEMENT, tag := env.towire_pubkey dstate.id,
         payload := build_node_announcement env dstate external_ip now }]

/-- The re-announce task in the words of the specification: for every peer in the
normal state, in list order, its channel_announcement and channel_update; then
the node_announcement if at least one channel was processed. -/
def announce_entries (env : wire_env) (dstate : lightningd_state) (now : Nat) :
    List queued_message :=
  ((dstate.peers.filter (fun p => env.state_is_normal p.state)).map
      (channel_entries env dstate now)).flatten ++
    (if dstate.peers.any (fun p => env.state_is_normal p.state) then
      node_entries env dstate now
     else [])

/-! ## A sample instance of the external functions

A small codec over lists of numbers, used to evaluate the handlers on concrete
inputs. A channel_announcement is `[256, block, tx, out, id1, id2]`, a
channel_update is `[258, block, tx, out, timestamp, flags, expiry, min, base,
prop]`. A node_announcement has the layout the handler relies on: two type bytes
`[1, 1]`, a 64-byte signature, then from offset 66 the body `timestamp, id, r,
g, b` followed by the address list. The double hash is the identity on the
body; the signature of a body under an identity is the key plus the sum of the
body, padded to 64 bytes; an address list decodes when it is `[host, port]`. -/

/-- Sample parser of channel_announcement. -/
def sample_fromwire_channel_announcement : bytes → Option channel_announcement_msg
  | [256, b, t, o, id1, id2] =>
    some { node_signature_1 := ⟨[]⟩, node_signature_2 := ⟨[]⟩,
           bitcoin_signature_1 := ⟨[]⟩, bitcoin_signature_2 := ⟨[]⟩,
           channel_id := ⟨b, t, o⟩, node_id_1 := ⟨id1⟩, node_id_2 := ⟨id2⟩,
           bitcoin_key_1 := ⟨id1⟩, bitcoin_key_2 := ⟨id2⟩, features := [] }
  | _ => none

/-- Sample parser of channel_update. -/
def sample_fromwire_channel_update : bytes → Option channel_update_msg
  | [258, b, t, o, ts, fl, ex, mn, bf, pf] =>
    some { signature := ⟨[]⟩, channel_id := ⟨b, t, o⟩, timestamp := ts, flags := fl,
           expiry := ex, htlc_minimum_msat := mn, fee_base_msat := bf,
           fee_proportional_millionths := pf }
  | _ => none

/-- Sample signature of a body under an identity. -/
def sample_sign (id : pubkey) (body : bytes) : secp256k1_ecdsa_signature :=
  ⟨(id.key + body.sum) :: List.replicate 63 0⟩

/-- Sample parser of node_announcement. -/
def sample_fromwire_node_announcement (msg : bytes) : Option node_announcement_msg :=
  if msg.take 2 = [1, 1] ∧ 66 ≤ msg.length then
    match msg.drop 66 with
    | ts :: id :: r :: g :: b :: addrs =>
      some { signature := ⟨(msg.drop 2).take 64⟩, timestamp := ts, node_id := ⟨id⟩,
             rgb_color := [r, g, b], alias_ := [], features := [], addresses := addrs }
    | _ => none
  else none

/-- Sample address decoder. -/
def sample_read_ip : bytes → Option (bytes × Nat)
  | [h, p] => some ([h], p)
  | _ => none

/-- Sample instance of the external functions. -/
def sample_env : wire_env where
  fromwire_channel_announcement := sample_fromwire_channel_announcement
  fromwire_channel_update := sample_fromwire_channel_update
  fromwire_node_announcement := sample_fromwire_node_announcement
  towire_channel_id := fun c => [c.blocknum, c.txnum, c.outnum]
  towire_pubkey := fun k => [k.key]
  towire_channel_announcement := fun _ _ _ _ c id1 id2 _ _ _ =>
    [256, c.blocknum, c.txnum, c.outnum, id1.key, id2.key]
  towire_channel_update := fun _ c ts fl ex mn bf pf =>
    [258, c.blocknum, c.txnum, c.outnum, ts, fl, ex, mn, bf, pf]
  towire_node_announcement := fun sg ts id rgb _ _ addrs =>
    [1, 1] ++ sg.data ++ [ts, id.key] ++ rgb ++ addrs
  sha256_double := fun b => ⟨b⟩
  check_signed_hash := fun h sg id => decide (sg = sample_sign id h.sha)
  privkey_sign := sample_sign
  pubkey_cmp := fun a b => (a.key : Int) - (b.key : Int)
  read_ip := sample_read_ip
  write_ip := fun h p => h ++ [p]
  locate_tx := fun txid => ⟨txid.headD 0, txid.length⟩
  state_is_normal := fun st => decide (st = 1)

/-- A correctly signed sample node_announcement, built in two passes as
`broadcast_node_announcement` does: serialize with a zero signature, sign the
bytes from offset 66, serialize again with the signature in place. -/
def sample_node_announcement (id : pubkey) (timestamp : Nat) (rgb addrs : bytes) : bytes :=
  sample_env.towire_node_announcement
    (sample_env.privkey_sign id
      ((sample_env.towire_node_announcement ⟨List.replicate 64 0⟩ timestamp id rgb [] []
        addrs).drop 66))
    timestamp id rgb [] [] addrs

/-- The empty routing state. -/
def empty_rstate : routing_state :=
  { nodes := [], connections := [], broadcasts := { log := [] } }

/-- Scenario 1 of the specification: the state after a channel_announcement for
reference (100,2,0) between identities 7 and 9. -/
def scenario1 : routing_state :=
  handle_channel_announcement sample_env empty_rstate [256, 100, 2, 0, 7, 9]

/-- Scenario 4 of the specification, first step: scenario 1 followed by a correctly
signed node_announcement for identity 7 with timestamp 50. -/
def scenario4 : routing_state :=
  handle_node_announcement sample_env scenario1
    (sample_node_announcement ⟨7⟩ 50 [1, 2, 3] [10, 9735])

/-- Scenario 2 of the specification: scenario 1, then a channel_update for direction
0 with timestamp 1000, then one for direction 1 with timestamp 999. -/
def scenario2 : routing_state :=
  handle_channel_update sample_env
    (handle_channel_update sample_env scenario1 [258, 100, 2, 0, 1000, 0, 6, 1, 10, 20])
    [258, 100, 2, 0, 999, 1, 7, 2, 11, 21]

/-- A daemon on scenario 2 with one peer in the normal state that has not been
drained yet, and one peer that is not in the normal state. -/
def scenario2_daemon : lightningd_state :=
  { id := ⟨7⟩, external_ip := some [10], portnum := 9735,
    config := { min_htlc_expiry := 6, fee_base := 10, fee_per_satoshi := 20 },
    peers :=
      [{ id := ⟨9⟩, state := 1, anchor := { txid := [100], index := 0 },
         broadcast_index := 0, outpkt := [] },
       { id := ⟨11⟩, state := 0, anchor := { txid := [101], index := 0 },
         broadcast_index := 0, outpkt := [] }],
    rstate := scenario2 }

/-- A node_announcement for identity 7 with timestamp 50 that carries the zero
signature instead of a signature of its body. -/
def unsigned_sample_announcement : bytes :=
  sample_env.towire_node_announcement zero_signature 50 ⟨7⟩ [1, 2, 3] [] [] [10, 9735]

/-- A peer in the normal state with the higher key 9, whose anchor is located at
block 100, index 2. -/
def peer9 : peer :=
  { id := ⟨9⟩, state := 1, anchor := { txid := [100, 5], index := 0 },
    broadcast_index := 0, outpkt := [] }

/-- A peer with the lower key 5 that is not in the normal state. -/
def peer5 : peer :=
  { id := ⟨5⟩, state := 0, anchor := { txid := [200, 5, 5], index := 1 },
    broadcast_index := 0, outpkt := [] }

/-- A peer in the normal state with the lower key 3. -/
def peer3 : peer :=
  { id := ⟨3⟩, state := 1, anchor := { txid := [300], index := 0 },
    broadcast_index := 0, outpkt := [] }

/-- A daemon with identity 7, an external address, an empty routing state and the
peers 9 (normal), 5 (not normal) and 3 (normal). -/
def sample_daemon : lightningd_state :=
  { id := ⟨7⟩, external_ip := some [10], portnum := 9735,
    config := { min_htlc_expiry := 6, fee_base := 10, fee_per_satoshi := 20 },
    peers := [peer9, peer5, peer3],
    rstate := empty_rstate }

/-- The sample instance with a channel_announcement layout that shows the four
signatures: two type bytes, the two node signatures and the two bitcoin
signatures (64 bytes each), then the reference, the identities and the keys. -/
def slot_env : wire_env :=
  { sample_env with
    towire_channel_announcement := fun ns1 ns2 bs1 bs2 c id1 id2 k1 k2 _ =>
      [1, 0] ++ ns1.data ++ ns2.data ++ bs1.data ++ bs2.data ++
        [c.blocknum, c.txnum, c.outnum, id1.key, id2.key, k1.key, k2.key] }

/-- The peer of the same channel as `peer9`, seen from the other side: identity 7. -/
def peer7 : peer :=
  { peer9 with id := ⟨7⟩ }

/-- The daemon at the other end of that channel: identity 9 with the peer 7. -/
def remote_daemon : lightningd_state :=
  { sample_daemon with id := ⟨9⟩, peers := [peer7] }

/-- A daemon with identity 7 and an external address whose only peer is not in the
normal state. -/
def idle_daemon : lightningd_state :=
  { sample_daemon with peers := [peer5] }

/-- A daemon with identity 7 and a peer in the normal state but no external
address. -/
def hidden_daemon : lightningd_state :=
  { sample_daemon with external_ip := none }

/-! ## Lemmas on first-match lookup and in-place rewrite -/

theorem find_update_first_same {α : Type} (p : α → Bool) (f : α → α)
    (hp : ∀ x, p (f x) = p x) (l : List α) :
    (update_first p f l).find? p = (l.find? p).map f := by
  induction l with
  | nil => simp [update_first]
  | cons x xs ih =>
    by_cases hx : p x = true
    · simp [update_first, hx, hp]
    · simp only [Bool.not_eq_true] at hx
      simp [update_first, hx, ih]

theorem find_update_first_other {α : Type} (p q : α → Bool) (f : α → α)
    (hq : ∀ x, p x = true → q x = false ∧ q (f x) = false) (l : List α) :
    (update_first p f l).find? q = l.find? q := by
  induction l with
  | nil => simp [update_first]
  | cons x xs ih =>
    by_cases hx : p x = true
    · simp [update_first, hx, (hq x hx).1, (hq x hx).2]
    · simp only [Bool.not_eq_true] at hx
      by_cases hqx : q x = true
      · simp [update_first, hx, hqx]
      · simp only [Bool.not_eq_true] at hqx
        simp [update_first, hx, hqx, ih]

theorem update_first_length {α : Type} (p : α → Bool) (f : α → α) (l : List α) :
    (update_first p f l).length = l.length := by
  induction l with
  | nil => simp [update_first]
  | cons x xs ih =>
    by_cases hx : p x = true
    · simp [update_first, hx]
    · simp only [Bool.not_eq_true] at hx
      simp [update_first, hx, ih]

/-! ## Lemmas on the handlers -/

theorem handle_channel_update_reject_unknown (env : wire_env) (s : routing_state)
    (update : bytes) (m : channel_update_msg)
    (hparse : env.fromwire_channel_update update = some m)
    (hedge : get_connection_by_cid s m.channel_id (m.flags &&& 1) = none) :
    handle_channel_update env s update = s := by
  simp [handle_channel_update, hparse, hedge, -Nat.and_one_is_mod]

theorem handle_channel_update_reject_old (env : wire_env) (s : routing_state)
    (update : bytes) (m : channel_update_msg) (c : node_connection)
    (hparse : env.fromwire_channel_update update = some m)
    (hedge : get_connection_by_cid s m.channel_id (m.flags &&& 1) = some c)
    (hts : m.timestamp ≤ c.last_timestamp) :
    handle_channel_update env s update = s := by
  simp [handle_channel_update, hparse, hedge, hts, -Nat.and_one_is_mod]

theorem handle_channel_update_accept_eq (env : wire_env) (s : routing_state)
    (update : bytes) (m : channel_update_msg) (c : node_connection)
    (hparse : env.fromwire_channel_update update = some m)
    (hedge : get_connection_by_cid s m.channel_id (m.flags &&& 1) = some c)
    (hts : c.last_timestamp < m.timestamp) :
    handle_channel_update env s update =
      { s with
        connections := update_first
          (fun c => decide (c.channel_id = m.channel_id) &&
            decide (c.flags &&& 1 = m.flags &&& 1))
          (fun c => { c with
            last_timestamp := m.timestamp,
            delay := m.expiry,
            htlc_minimum_msat := m.htlc_minimum_msat,
            base_fee := m.fee_base_msat,
            proportional_fee := m.fee_proportional_millionths,
            active := true,
            channel_update := some update })
          s.connections,
        broadcasts := queue_broadcast s.broadcasts WIRE_CHANNEL_UPDATE
          (env.towire_channel_id m.channel_id) update } := by
  have h : ¬ (m.timestamp ≤ c.last_timestamp) := Nat.not_le.mpr hts
  simp [handle_channel_update, hparse, hedge, h, -Nat.and_one_is_mod]

/-- After an accepted channel_update the edge of its key holds the message's
values; the lookup of any other key answers as before. -/
theorem get_connection_after_update (env : wire_env) (s : routing_state)
    (update : bytes) (m : channel_update_msg) (c : node_connection)
    (hparse : env.fromwire_channel_update update = some m)
    (hedge : get_connection_by_cid s m.channel_id (m.flags &&& 1) = some c)
    (hts : c.last_timestamp < m.timestamp) :
    get_connection_by_cid (handle_channel_update env s update) m.channel_id (m.flags &&& 1) =
      some { c with
        last_timestamp := m.timestamp,
        delay := m.expiry,
        htlc_minimum_msat := m.htlc_minimum_msat,
        base_fee := m.fee_base_msat,
        proportional_fee := m.fee_proportional_millionths,
        active := true,
        channel_update := some update } := by
  rw [handle_channel_update_accept_eq env s update m c hparse hedge hts]
  unfold get_connection_by_cid at hedge ⊢
  simp only []
  refine Eq.trans (find_update_first_same _ _ ?_ _) ?_
  · intro x
    rfl
  · rw [hedge]
    rfl

theorem get_connection_other_after_update (env : wire_env) (s : routing_state)
    (update : bytes) (m : channel_update_msg) (cid : channel_id) (d : Nat)
    (hparse : env.fromwire_channel_update update = some m)
    (hne : ¬ (m.channel_id = cid ∧ m.flags &&& 1 = d)) :
    get_connection_by_cid (handle_channel_update env s update) cid d =
      get_connection_by_cid s cid d := by
  cases hedge : get_connection_by_cid s m.channel_id (m.flags &&& 1) with
  | none => rw [handle_channel_update_reject_unknown env s update m hparse hedge]
  | some c =>
    by_cases hts : c.last_timestamp < m.timestamp
    · rw [handle_channel_update_accept_eq env s update m c hparse hedge hts]
      unfold get_connection_by_cid
      simp only []
      apply find_update_first_other
      intro x hx
      simp only [Bool.and_eq_true, decide_eq_true_eq] at hx
      have : ¬ (x.channel_id = cid ∧ x.flags &&& 1 = d) := by
        rintro ⟨h1, h2⟩
        exact hne ⟨hx.1 ▸ h1, hx.2 ▸ h2⟩
      constructor
      · simpa [-Nat.and_one_is_mod] using this
      · simpa [-Nat.and_one_is_mod] using this
    · rw [handle_channel_update_reject_old env s update m c hparse hedge (Nat.not_lt.mp hts)]

theorem update_first_twice {α : Type} (p : α → Bool) (f g : α → α)
    (hp : ∀ x, p x = true → p (f x) = true) (l : List α) :
    update_first p g (update_first p f l) = update_first p (fun x => g (f x)) l := by
  induction l with
  | nil => simp [update_first]
  | cons x xs ih =>
    by_cases hx : p x = true
    · simp [update_first, hx, hp x hx]
    · simp only [Bool.not_eq_true] at hx
      simp [update_first, hx, ih]

theorem handle_node_announcement_reject_unknown (env : wire_env) (s : routing_state)
    (node_ann : bytes) (m : node_announcement_msg)
    (hparse : env.fromwire_node_announcement node_ann = some m)
    (hnode : get_node s m.node_id = none) :
    handle_node_announcement env s node_ann = s := by
  simp [handle_node_announcement, hparse, hnode]

theorem handle_node_announcement_reject_old (env : wire_env) (s : routing_state)
    (node_ann : bytes) (m : node_announcement_msg) (n : node)
    (hparse : env.fromwire_node_announcement node_ann = some m)
    (hnode : get_node s m.node_id = some n)
    (hts : m.timestamp ≤ n.last_timestamp) :
    handle_node_announcement env s node_ann = s := by
  simp [handle_node_announcement, hparse, hnode, hts]

theorem handle_node_announcement_reject_sig (env : wire_env) (s : routing_state)
    (node_ann : bytes) (m : node_announcement_msg)
    (hparse : env.fromwire_node_announcement node_ann = some m)
    (hsig : env.check_signed_hash (env.sha256_double (node_ann.drop 66))
      m.signature m.node_id = false) :
    handle_node_announcement env s node_ann = s := by
  simp [handle_node_announcement, hparse, hsig]

theorem handle_node_announcement_accept_eq (env : wire_env) (s : routing_state)
    (node_ann : bytes) (m : node_announcement_msg) (n : node) (host : bytes) (port : Nat)
    (hparse : env.fromwire_node_announcement node_ann = some m)
    (hsig : env.check_signed_hash (env.sha256_double (node_ann.drop 66))
      m.signature m.node_id = true)
    (hnode : get_node s m.node_id = some n)
    (hts : n.last_timestamp < m.timestamp)
    (hip : env.read_ip m.addresses = some (host, port)) :
    handle_node_announcement env s node_ann =
      { s with
        nodes := update_first (fun x => decide (x.id = m.node_id))
          (fun x => { x with
            last_timestamp := m.timestamp,
            hostname := some host,
            port := port,
            rgb_color := m.rgb_color,
            node_announcement := some node_ann })
          s.nodes,
        broadcasts := queue_broadcast s.broadcasts WIRE_NODE_ANNOUNCEMENT
          (env.towire_pubkey m.node_id) node_ann } := by
  have h : ¬ (m.timestamp ≤ n.last_timestamp) := Nat.not_le.mpr hts
  simp only [handle_node_announcement, hparse, hsig, hnode, hip, ge_iff_le, h,
    Bool.not_true, Bool.false_eq_true, if_false, List.nil_append]
  congr 1
  refine Eq.trans (update_first_twice _ _ _ ?_ _) rfl
  intro x hx
  exact hx

theorem handle_node_announcement_fail_ip_eq (env : wire_env) (s : routing_state)
    (node_ann : bytes) (m : node_announcement_msg) (n : node)
    (hparse : env.fromwire_node_announcement node_ann = some m)
    (hsig : env.check_signed_hash (env.sha256_double (node_ann.drop 66))
      m.signature m.node_id = true)
    (hnode : get_node s m.node_id = some n)
    (hts : n.last_timestamp < m.timestamp)
    (hip : env.read_ip m.addresses = none) :
    handle_node_announcement env s node_ann =
      { s with
        nodes := update_first (fun x => decide (x.id = m.node_id))
          (fun x => { x with last_timestamp := m.timestamp, hostname := none })
          s.nodes } := by
  have h : ¬ (m.timestamp ≤ n.last_timestamp) := Nat.not_le.mpr hts
  simp only [handle_node_announcement, hparse, hsig, hnode, hip, ge_iff_le, h,
    Bool.not_true, Bool.false_eq_true, if_false]

theorem get_node_update_first (s : routing_state) (id : pubkey) (f : node → node)
    (hf : ∀ x, (f x).id = x.id) (bs : broadcast_state) :
    get_node { s with
      nodes := update_first (fun x => decide (x.id = id)) f s.nodes, broadcasts := bs } id =
      (get_node s id).map f := by
  unfold get_node
  simp only []
  refine find_update_first_same _ _ ?_ _
  intro x
  simp [hf]

/-! ## Properties of `handle_channel_update` and `handle_node_announcement` -/

/-- C3. Referential integrity: a channel_update that parses and whose edge
(channel reference, bit 0 of flags) is not in the topology store is rejected,
whatever its flags: the routing state (nodes, edges, broadcast log) is the one
before the call. -/
theorem channel_update_unknown_edge_rejected (env : wire_env) (s : routing_state)
    (update : bytes) (m : channel_update_msg)
    (hparse : env.fromwire_channel_update update = some m)
    (hedge : get_connection_by_cid s m.channel_id (m.flags &&& 1) = none) :
    handle_channel_update env s update = s :=
  handle_channel_update_reject_unknown env s update m hparse hedge

/-- Witness of C3: on scenario 1 (channel (100,2,0) announced) an update for the
never announced reference (101,2,0) with flags 3 changes nothing. -/
theorem channel_update_unknown_edge_rejected_witness :
    get_connection_by_cid scenario1 ⟨101, 2, 0⟩ (3 &&& 1) = none ∧
    handle_channel_update sample_env scenario1 [258, 101, 2, 0, 1000, 3, 6, 1, 10, 20] =
      scenario1 :=
  ⟨by decide,
   channel_update_unknown_edge_rejected sample_env scenario1
     [258, 101, 2, 0, 1000, 3, 6, 1, 10, 20]
     { signature := ⟨[]⟩, channel_id := ⟨101, 2, 0⟩, timestamp := 1000, flags := 3,
       expiry := 6, htlc_minimum_msat := 1, fee_base_msat := 10,
       fee_proportional_millionths := 20 }
     rfl (by decide)⟩

/-- C4. A node_announcement for an identity that has no node record is rejected,
whether or not its signature verifies: the routing state is the one before the
call, and the identity still has no record afterwards. -/
theorem node_announcement_unknown_node_rejected (env : wire_env) (s : routing_state)
    (node_ann : bytes) (m : node_announcement_msg)
    (hparse : env.fromwire_node_announcement node_ann = some m)
    (hnode : get_node s m.node_id = none) :
    handle_node_announcement env s node_ann = s ∧
    get_node (handle_node_announcement env s node_ann) m.node_id = none := by
  have h := handle_node_announcement_reject_unknown env s node_ann m hparse hnode
  exact ⟨h, by rw [h]; exact hnode⟩

/-- Witness of C4 (scenario 3): a correctly signed node_announcement for identity
7 with timestamp 50 on the empty routing state. -/
theorem node_announcement_unknown_node_rejected_witness :
    sample_env.check_signed_hash (sample_env.sha256_double
      (List.drop 66 (sample_node_announcement ⟨7⟩ 50 [1, 2, 3] [10, 9735])))
      (sample_sign ⟨7⟩ [50, 7, 1, 2, 3, 10, 9735]) ⟨7⟩ = true ∧
    handle_node_announcement sample_env empty_rstate
      (sample_node_announcement ⟨7⟩ 50 [1, 2, 3] [10, 9735]) =
      empty_rstate ∧
    get_node (handle_node_announcement sample_env empty_rstate
      (sample_node_announcement ⟨7⟩ 50 [1, 2, 3] [10, 9735])) ⟨7⟩ = none :=
  ⟨by decide,
   node_announcement_unknown_node_rejected sample_env empty_rstate
     (sample_node_announcement ⟨7⟩ 50 [1, 2, 3] [10, 9735])
     { signature := sample_sign ⟨7⟩ [50, 7, 1, 2, 3, 10, 9735],
       timestamp := 50, node_id := ⟨7⟩, rgb_color := [1, 2, 3],
       alias_ := [], features := [], addresses := [10, 9735] }
     rfl (by decide)⟩

/-- C8. Acceptance postcondition of channel_update: when the message parses and
its edge exists with a strictly lower stored timestamp, afterwards the edge of
that key carries the message's timestamp, delay, minimum HTLC amount, base fee
and proportional fee, is active and stores the message bytes; the broadcast
log gained exactly one slot, a channel_update entry whose tag is the serialized
channel reference and whose payload is the message bytes (earlier slots are
kept or retired); node records are untouched. -/
theorem channel_update_accept_postcondition (env : wire_env) (s : routing_state)
    (update : bytes) (m : channel_update_msg) (c : node_connection)
    (hparse : env.fromwire_channel_update update = some m)
    (hedge : get_connection_by_cid s m.channel_id (m.flags &&& 1) = some c)
    (hts : c.last_timestamp < m.timestamp) :
    get_connection_by_cid (handle_channel_update env s update) m.channel_id (m.flags &&& 1) =
      some { c with
        last_timestamp := m.timestamp,
        delay := m.expiry,
        htlc_minimum_msat := m.htlc_minimum_msat,
        base_fee := m.fee_base_msat,
        proportional_fee := m.fee_proportional_millionths,
        active := true,
        channel_update := some update } ∧
    (handle_channel_update env s update).broadcasts.log =
      s.broadcasts.log.map (retire WIRE_CHANNEL_UPDATE (env.towire_channel_id m.channel_id)) ++
        [some { type := WIRE_CHANNEL_UPDATE, tag := env.towire_channel_id m.channel_id,
                payload := update }] ∧
    (handle_channel_update env s update).broadcasts.log.length =
      s.broadcasts.log.length + 1 ∧
    (handle_channel_update env s update).nodes = s.nodes := by
  refine ⟨get_connection_after_update env s update m c hparse hedge hts, ?_, ?_, ?_⟩
  · rw [handle_channel_update_accept_eq env s update m c hparse hedge hts]
    rfl
  · rw [handle_channel_update_accept_eq env s update m c hparse hedge hts]
    simp [queue_broadcast]
  · rw [handle_channel_update_accept_eq env s update m c hparse hedge hts]

/-- Witness of C8 (scenario 2): on scenario 1, a channel_update for direction 0 of
(100,2,0) with timestamp 1000. -/
theorem channel_update_accept_postcondition_witness :
    get_connection_by_cid
      (handle_channel_update sample_env scenario1 [258, 100, 2, 0, 1000, 0, 6, 1, 10, 20])
      ⟨100, 2, 0⟩ 0 =
      some { src := ⟨7⟩, dst := ⟨9⟩, channel_id := ⟨100, 2, 0⟩, flags := 0,
             last_timestamp := 1000, delay := 6, htlc_minimum_msat := 1, base_fee := 10,
             proportional_fee := 20, active := true,
             channel_announcement := some [256, 100, 2, 0, 7, 9],
             channel_update := some [258, 100, 2, 0, 1000, 0, 6, 1, 10, 20] } ∧
    (handle_channel_update sample_env scenario1
      [258, 100, 2, 0, 1000, 0, 6, 1, 10, 20]).broadcasts.log =
      [some ⟨WIRE_CHANNEL_ANNOUNCEMENT, [100, 2, 0], [256, 100, 2, 0, 7, 9]⟩,
       some ⟨WIRE_CHANNEL_UPDATE, [100, 2, 0], [258, 100, 2, 0, 1000, 0, 6, 1, 10, 20]⟩] :=
  have h := channel_update_accept_postcondition sample_env scenario1
    [258, 100, 2, 0, 1000, 0, 6, 1, 10, 20]
    { signature := ⟨[]⟩, channel_id := ⟨100, 2, 0⟩, timestamp := 1000, flags := 0,
      expiry := 6, htlc_minimum_msat := 1, fee_base_msat := 10,
      fee_proportional_millionths := 20 }
    { src := ⟨7⟩, dst := ⟨9⟩, channel_id := ⟨100, 2, 0⟩, flags := 0,
      last_timestamp := 0, delay := 0, htlc_minimum_msat := 0, base_fee := 0,
      proportional_fee := 0, active := false,
      channel_announcement := some [256, 100, 2, 0, 7, 9], channel_update := none }
    rfl (by decide) (by decide)
  ⟨h.1, h.2.1⟩

/-- C9. Acceptance postcondition of node_announcement: when the message parses,
its signature verifies, the node record exists with a strictly lower stored
timestamp and the address list decodes, afterwards the record carries the
message's timestamp, the decoded host and port, the message's color and the
message bytes; the broadcast log gained exactly one slot, a node_announcement
entry whose tag is the serialized identity and whose payload is the message
bytes; edges are untouched. -/
theorem node_announcement_accept_postcondition (env : wire_env) (s : routing_state)
    (node_ann : bytes) (m : node_announcement_msg) (n : node) (host : bytes) (port : Nat)
    (hparse : env.fromwire_node_announcement node_ann = some m)
    (hsig : env.check_signed_hash (env.sha256_double (node_ann.drop 66))
      m.signature m.node_id = true)
    (hnode : get_node s m.node_id = some n)
    (hts : n.last_timestamp < m.timestamp)
    (hip : env.read_ip m.addresses = some (host, port)) :
    get_node (handle_node_announcement env s node_ann) m.node_id =
      some { n with
        last_timestamp := m.timestamp,
        hostname := some host,
        port := port,
        rgb_color := m.rgb_color,
        node_announcement := some node_ann } ∧
    (handle_node_announcement env s node_ann).broadcasts.log =
      s.broadcasts.log.map (retire WIRE_NODE_ANNOUNCEMENT (env.towire_pubkey m.node_id)) ++
        [some { type := WIRE_NODE_ANNOUNCEMENT, tag := env.towire_pubkey m.node_id,
                payload := node_ann }] ∧
    (handle_node_announcement env s node_ann).broadcasts.log.length =
      s.broadcasts.log.length + 1 ∧
    (handle_node_announcement env s node_ann).connections = s.connections := by
  rw [handle_node_announcement_accept_eq env s node_ann m n host port hparse hsig hnode hts hip]
  refine ⟨?_, rfl, ?_, rfl⟩
  · refine Eq.trans (get_node_update_first s m.node_id _ ?_ _) ?_
    · intro x
      rfl
    · rw [hnode]
      rfl
  · simp [queue_broadcast]

/-- Witness of C9: on scenario 1, a correctly signed node_announcement for identity
7 with timestamp 50, color (1,2,3) and address (10, 9735). -/
theorem node_announcement_accept_postcondition_witness :
    get_node (handle_node_announcement sample_env scenario1
      (sample_node_announcement ⟨7⟩ 50 [1, 2, 3] [10, 9735])) ⟨7⟩ =
      some { id := ⟨7⟩, last_timestamp := 50, hostname := some [10], port := 9735,
             rgb_color := [1, 2, 3],
             node_announcement := some (sample_node_announcement ⟨7⟩ 50 [1, 2, 3] [10, 9735]) } ∧
    (handle_node_announcement sample_env scenario1
      (sample_node_announcement ⟨7⟩ 50 [1, 2, 3] [10, 9735])).broadcasts.log =
      [some ⟨WIRE_CHANNEL_ANNOUNCEMENT, [100, 2, 0], [256, 100, 2, 0, 7, 9]⟩,
       some ⟨WIRE_NODE_ANNOUNCEMENT, [7],
         (sample_node_announcement ⟨7⟩ 50 [1, 2, 3] [10, 9735])⟩] :=
  have h := node_announcement_accept_postcondition sample_env scenario1
    (sample_node_announcement ⟨7⟩ 50 [1, 2, 3] [10, 9735])
    { signature := sample_sign ⟨7⟩ [50, 7, 1, 2, 3, 10, 9735],
      timestamp := 50, node_id := ⟨7⟩, rgb_color := [1, 2, 3],
      alias_ := [], features := [], addresses := [10, 9735] }
    { id := ⟨7⟩, last_timestamp := 0, hostname := none, port := 0,
      rgb_color := [0, 0, 0], node_announcement := none }
    [10] 9735 rfl (by decide) (by decide) (by decide) rfl
  ⟨h.1, h.2.1⟩

/-- C2. Monotonic timestamp law for node identities: for a correctly signed
node_announcement whose identity has a node record, a timestamp equal to or
lower than the stored one is rejected (routing state unchanged), and a strictly
greater timestamp with a decodable address is accepted: the record then carries
the message's timestamp, decoded address and color, and the message is
enqueued. -/
theorem node_announcement_timestamp_law (env : wire_env) (s : routing_state)
    (node_ann : bytes) (m : node_announcement_msg) (n : node)
    (hparse : env.fromwire_node_announcement node_ann = some m)
    (hsig : env.check_signed_hash (env.sha256_double (node_ann.drop 66))
      m.signature m.node_id = true)
    (hnode : get_node s m.node_id = some n) :
    (m.timestamp ≤ n.last_timestamp → handle_node_announcement env s node_ann = s) ∧
    (n.last_timestamp < m.timestamp →
      ∀ host port, env.read_ip m.addresses = some (host, port) →
        get_node (handle_node_announcement env s node_ann) m.node_id =
          some { n with
            last_timestamp := m.timestamp,
            hostname := some host,
            port := port,
            rgb_color := m.rgb_color,
            node_announcement := some node_ann } ∧
        (handle_node_announcement env s node_ann).broadcasts =
          queue_broadcast s.broadcasts WIRE_NODE_ANNOUNCEMENT
            (env.towire_pubkey m.node_id) node_ann) := by
  refine ⟨fun hle => handle_node_announcement_reject_old env s node_ann m n hparse hnode hle, ?_⟩
  intro hts host port hip
  rw [handle_node_announcement_accept_eq env s node_ann m n host port hparse hsig hnode hts hip]
  refine ⟨?_, rfl⟩
  refine Eq.trans (get_node_update_first s m.node_id _ ?_ _) ?_
  · intro x
    rfl
  · rw [hnode]
    rfl

/-- Witness of C2 (scenario 4): after timestamp 50 was accepted for identity 7, a
second announcement with timestamp 50 is rejected, an older one with timestamp
49 is rejected, and one with timestamp 51 is accepted and overwrites address
and color. -/
theorem node_announcement_timestamp_law_witness :
    get_node scenario4 ⟨7⟩ =
      some { id := ⟨7⟩, last_timestamp := 50, hostname := some [10], port := 9735,
             rgb_color := [1, 2, 3],
             node_announcement := some (sample_node_announcement ⟨7⟩ 50 [1, 2, 3] [10, 9735]) } ∧
    handle_node_announcement sample_env scenario4
      (sample_node_announcement ⟨7⟩ 50 [4, 5, 6] [11, 9736]) =
      scenario4 ∧
    handle_node_announcement sample_env scenario4
      (sample_node_announcement ⟨7⟩ 49 [4, 5, 6] [11, 9736]) =
      scenario4 ∧
    get_node (handle_node_announcement sample_env scenario4
      (sample_node_announcement ⟨7⟩ 51 [4, 5, 6] [11, 9736])) ⟨7⟩ =
      some { id := ⟨7⟩, last_timestamp := 51, hostname := some [11], port := 9736,
             rgb_color := [4, 5, 6],
             node_announcement := some (sample_node_announcement ⟨7⟩ 51 [4, 5, 6] [11, 9736]) } :=
  ⟨by decide,
   (node_announcement_timestamp_law sample_env scenario4
      (sample_node_announcement ⟨7⟩ 50 [4, 5, 6] [11, 9736])
      { signature := sample_sign ⟨7⟩ [50, 7, 4, 5, 6, 11, 9736],
        timestamp := 50, node_id := ⟨7⟩, rgb_color := [4, 5, 6],
        alias_ := [], features := [], addresses := [11, 9736] }
      { id := ⟨7⟩, last_timestamp := 50, hostname := some [10], port := 9735,
        rgb_color := [1, 2, 3],
        node_announcement := some (sample_node_announcement ⟨7⟩ 50 [1, 2, 3] [10, 9735]) }
      rfl (by decide) (by decide)).1 (by decide),
   (node_announcement_timestamp_law sample_env scenario4
      (sample_node_announcement ⟨7⟩ 49 [4, 5, 6] [11, 9736])
      { signature := sample_sign ⟨7⟩ [49, 7, 4, 5, 6, 11, 9736],
        timestamp := 49, node_id := ⟨7⟩, rgb_color := [4, 5, 6],
        alias_ := [], features := [], addresses := [11, 9736] }
      { id := ⟨7⟩, last_timestamp := 50, hostname := some [10], port := 9735,
        rgb_color := [1, 2, 3],
        node_announcement := some (sample_node_announcement ⟨7⟩ 50 [1, 2, 3] [10, 9735]) }
      rfl (by decide) (by decide)).1 (by decide),
   ((node_announcement_timestamp_law sample_env scenario4
      (sample_node_announcement ⟨7⟩ 51 [4, 5, 6] [11, 9736])
      { signature := sample_sign ⟨7⟩ [51, 7, 4, 5, 6, 11, 9736],
        timestamp := 51, node_id := ⟨7⟩, rgb_color := [4, 5, 6],
        alias_ := [], features := [], addresses := [11, 9736] }
      { id := ⟨7⟩, last_timestamp := 50, hostname := some [10], port := 9735,
        rgb_color := [1, 2, 3],
        node_announcement := some (sample_node_announcement ⟨7⟩ 50 [1, 2, 3] [10, 9735]) }
      rfl (by decide) (by decide)).2 (by decide) [11] 9736 rfl).1⟩

/-- When `read_ip` fails on an otherwise acceptable node_announcement, the handler
returns with the record's timestamp already overwritten and its hostname
cleared; nothing is enqueued and the raw announcement is not replaced. -/
theorem node_announcement_address_failure_state (env : wire_env) (s : routing_state)
    (node_ann : bytes) (m : node_announcement_msg) (n : node)
    (hparse : env.fromwire_node_announcement node_ann = some m)
    (hsig : env.check_signed_hash (env.sha256_double (node_ann.drop 66))
      m.signature m.node_id = true)
    (hnode : get_node s m.node_id = some n)
    (hts : n.last_timestamp < m.timestamp)
    (hip : env.read_ip m.addresses = none) :
    get_node (handle_node_announcement env s node_ann) m.node_id =
      some { n with last_timestamp := m.timestamp, hostname := none } ∧
    (handle_node_announcement env s node_ann).broadcasts = s.broadcasts ∧
    handle_node_announcement env s node_ann ≠ s := by
  have hget : get_node (handle_node_announcement env s node_ann) m.node_id =
      some { n with last_timestamp := m.timestamp, hostname := none } := by
    rw [handle_node_announcement_fail_ip_eq env s node_ann m n hparse hsig hnode hts hip]
    refine Eq.trans (get_node_update_first s m.node_id _ ?_ _) ?_
    · intro x
      rfl
    · rw [hnode]
      rfl
  refine ⟨hget, ?_, ?_⟩
  · rw [handle_node_announcement_fail_ip_eq env s node_ann m n hparse hsig hnode hts hip]
  · intro heq
    rw [heq, hnode] at hget
    have h2 := congrArg (fun o => o.map node.last_timestamp) hget
    simp only [Option.map_some'] at h2
    have h3 : n.last_timestamp = m.timestamp := Option.some.inj h2
    omega

/-- C7, evaluated on the code: on scenario 4 (identity 7 known with timestamp 50,
host 10, port 9735), a correctly signed node_announcement with timestamp 60
whose address list (here empty) does not decode leaves the record with
timestamp 60 and no hostname, and enqueues nothing; a later well-formed
announcement with timestamp 60 is then rejected as outdated. -/
theorem node_announcement_address_failure_mutates :
    sample_env.read_ip [] = none ∧
    get_node scenario4 ⟨7⟩ =
      some { id := ⟨7⟩, last_timestamp := 50, hostname := some [10], port := 9735,
             rgb_color := [1, 2, 3],
             node_announcement := some (sample_node_announcement ⟨7⟩ 50 [1, 2, 3] [10, 9735]) } ∧
    get_node (handle_node_announcement sample_env scenario4
      (sample_node_announcement ⟨7⟩ 60 [4, 5, 6] [])) ⟨7⟩ =
      some { id := ⟨7⟩, last_timestamp := 60, hostname := none, port := 9735,
             rgb_color := [1, 2, 3],
             node_announcement := some (sample_node_announcement ⟨7⟩ 50 [1, 2, 3] [10, 9735]) } ∧
    (handle_node_announcement sample_env scenario4
      (sample_node_announcement ⟨7⟩ 60 [4, 5, 6] [])).broadcasts =
      scenario4.broadcasts ∧
    handle_node_announcement sample_env scenario4
      (sample_node_announcement ⟨7⟩ 60 [4, 5, 6] []) ≠ scenario4 ∧
    handle_node_announcement sample_env
      (handle_node_announcement sample_env scenario4 (sample_node_announcement ⟨7⟩ 60 [4, 5, 6] []))
      (sample_node_announcement ⟨7⟩ 60 [4, 5, 6] [11, 9736]) =
      handle_node_announcement sample_env scenario4
        (sample_node_announcement ⟨7⟩ 60 [4, 5, 6] []) := by
  decide

/-! ## Properties of `handle_channel_announcement` -/

theorem get_or_create_node_connections (s : routing_state) (id : pubkey) :
    (get_or_create_node s id).connections = s.connections ∧
    (get_or_create_node s id).broadcasts = s.broadcasts := by
  unfold get_or_create_node
  cases get_node s id <;> exact ⟨rfl, rfl⟩

theorem add_channel_direction_present (s : routing_state) (src dst : pubkey) (d : Nat)
    (cid : channel_id) (ann : bytes) (c : node_connection)
    (h : get_connection_by_cid s cid d = some c) :
    add_channel_direction s src dst d cid ann = (s, false) := by
  simp [add_channel_direction, h]

theorem add_channel_direction_absent (s : routing_state) (src dst : pubkey) (d : Nat)
    (cid : channel_id) (ann : bytes)
    (h : get_connection_by_cid s cid d = none) :
    add_channel_direction s src dst d cid ann =
      ({ get_or_create_node (get_or_create_node s src) dst with
         connections := s.connections ++
           [{ src := src, dst := dst, channel_id := cid, flags := d,
              last_timestamp := 0, delay := 0, htlc_minimum_msat := 0,
              base_fee := 0, proportional_fee := 0, active := false,
              channel_announcement := some ann,
              channel_update := none }] }, true) := by
  simp [add_channel_direction, h, get_or_create_node_connections]

theorem add_channel_direction_report (s : routing_state) (src dst : pubkey) (d : Nat)
    (cid : channel_id) (ann : bytes) :
    (add_channel_direction s src dst d cid ann).2 =
      (get_connection_by_cid s cid d).isNone := by
  cases h : get_connection_by_cid s cid d with
  | none => rw [add_channel_direction_absent s src dst d cid ann h]; rfl
  | some c => rw [add_channel_direction_present s src dst d cid ann c h]; rfl

theorem add_channel_direction_broadcasts (s : routing_state) (src dst : pubkey) (d : Nat)
    (cid : channel_id) (ann : bytes) :
    (add_channel_direction s src dst d cid ann).1.broadcasts = s.broadcasts := by
  cases h : get_connection_by_cid s cid d with
  | none =>
    rw [add_channel_direction_absent s src dst d cid ann h]
    simp [get_or_create_node_connections]
  | some c => rw [add_channel_direction_present s src dst d cid ann c h]

/-- An edge that a lookup finds is still the answer of that lookup after
`add_channel_direction`. -/
theorem add_channel_direction_keeps (s : routing_state) (src dst : pubkey) (d : Nat)
    (cid : channel_id) (ann : bytes) (cid1 : channel_id) (d1 : Nat) (c : node_connection)
    (h : get_connection_by_cid s cid1 d1 = some c) :
    get_connection_by_cid (add_channel_direction s src dst d cid ann).1 cid1 d1 = some c := by
  cases h0 : get_connection_by_cid s cid d with
  | none =>
    rw [add_channel_direction_absent s src dst d cid ann h0]
    unfold get_connection_by_cid at h ⊢
    simp only [List.find?_append, h]
    rfl
  | some c0 => rw [add_channel_direction_present s src dst d cid ann c0 h0]; exact h

/-- After `add_channel_direction` for direction 0 or 1 the edge of that key exists. -/
theorem add_channel_direction_exists (s : routing_state) (src dst : pubkey) (d : Nat)
    (cid : channel_id) (ann : bytes) (hd : d &&& 1 = d) :
    ∃ c, get_connection_by_cid (add_channel_direction s src dst d cid ann).1 cid d = some c := by
  cases h0 : get_connection_by_cid s cid d with
  | none =>
    rw [add_channel_direction_absent s src dst d cid ann h0]
    unfold get_connection_by_cid at h0 ⊢
    simp only [List.find?_append, h0]
    simp [List.find?, hd, -Nat.and_one_is_mod]
  | some c0 =>
    rw [add_channel_direction_present s src dst d cid ann c0 h0]
    exact ⟨c0, h0⟩

theorem handle_channel_announcement_eq (env : wire_env) (s : routing_state)
    (announce : bytes) (m : channel_announcement_msg)
    (hparse : env.fromwire_channel_announcement announce = some m) :
    handle_channel_announcement env s announce =
      if (add_channel_direction s m.node_id_1 m.node_id_2 0 m.channel_id announce).2 = false ∧
         (add_channel_direction
           (add_channel_direction s m.node_id_1 m.node_id_2 0 m.channel_id announce).1
           m.node_id_2 m.node_id_1 1 m.channel_id announce).2 = false
      then
        (add_channel_direction
          (add_channel_direction s m.node_id_1 m.node_id_2 0 m.channel_id announce).1
          m.node_id_2 m.node_id_1 1 m.channel_id announce).1
      else
        { (add_channel_direction
            (add_channel_direction s m.node_id_1 m.node_id_2 0 m.channel_id announce).1
            m.node_id_2 m.node_id_1 1 m.channel_id announce).1 with
          broadcasts := queue_broadcast s.broadcasts WIRE_CHANNEL_ANNOUNCEMENT
            (env.towire_channel_id m.channel_id) announce } := by
  simp only [handle_channel_announcement, hparse, Bool.false_or, List.nil_append,
    add_channel_direction_broadcasts]
  cases (add_channel_direction s m.node_id_1 m.node_id_2 0 m.channel_id announce).2 <;>
  cases (add_channel_direction
           (add_channel_direction s m.node_id_1 m.node_id_2 0 m.channel_id announce).1
           m.node_id_2 m.node_id_1 1 m.channel_id announce).2 <;> simp

/-- After a channel_announcement that parses, both edges of its channel reference
exist. -/
theorem handle_channel_announcement_edges (env : wire_env) (s : routing_state)
    (announce : bytes) (m : channel_announcement_msg)
    (hparse : env.fromwire_channel_announcement announce = some m) :
    (∃ c, get_connection_by_cid (handle_channel_announcement env s announce)
      m.channel_id 0 = some c) ∧
    (∃ c, get_connection_by_cid (handle_channel_announcement env s announce)
      m.channel_id 1 = some c) := by
  obtain ⟨c0, h0⟩ := add_channel_direction_exists s m.node_id_1 m.node_id_2 0 m.channel_id
    announce (by decide)
  have h0k := add_channel_direction_keeps
    (add_channel_direction s m.node_id_1 m.node_id_2 0 m.channel_id announce).1
    m.node_id_2 m.node_id_1 1 m.channel_id announce m.channel_id 0 c0 h0
  obtain ⟨c1, h1⟩ := add_channel_direction_exists
    (add_channel_direction s m.node_id_1 m.node_id_2 0 m.channel_id announce).1
    m.node_id_2 m.node_id_1 1 m.channel_id announce (by decide)
  rw [handle_channel_announcement_eq env s announce m hparse]
  split
  · exact ⟨⟨c0, h0k⟩, ⟨c1, h1⟩⟩
  · exact ⟨⟨c0, h0k⟩, ⟨c1, h1⟩⟩

/-- C5. Forward-gating: for a channel_announcement that parses, the topology store
after the handler is the one after `add_channel_direction` for direction 0
(node_id_1 to node_id_2) followed by direction 1 (node_id_2 to node_id_1); when
at least one of the two calls reports a change the broadcast log gains exactly
one slot, a channel_announcement entry tagged with the serialized channel
reference and carrying the raw message; when neither reports a change the
broadcast log is unchanged. -/
theorem channel_announcement_forward_gating (env : wire_env) (s : routing_state)
    (announce : bytes) (m : channel_announcement_msg)
    (hparse : env.fromwire_channel_announcement announce = some m) :
    (handle_channel_announcement env s announce).nodes =
      (add_channel_direction
        (add_channel_direction s m.node_id_1 m.node_id_2 0 m.channel_id announce).1
        m.node_id_2 m.node_id_1 1 m.channel_id announce).1.nodes ∧
    (handle_channel_announcement env s announce).connections =
      (add_channel_direction
        (add_channel_direction s m.node_id_1 m.node_id_2 0 m.channel_id announce).1
        m.node_id_2 m.node_id_1 1 m.channel_id announce).1.connections ∧
    (((add_channel_direction s m.node_id_1 m.node_id_2 0 m.channel_id announce).2 = true ∨
      (add_channel_direction
        (add_channel_direction s m.node_id_1 m.node_id_2 0 m.channel_id announce).1
        m.node_id_2 m.node_id_1 1 m.channel_id announce).2 = true) →
      (handle_channel_announcement env s announce).broadcasts.log =
        s.broadcasts.log.map
          (retire WIRE_CHANNEL_ANNOUNCEMENT (env.towire_channel_id m.channel_id)) ++
          [some { type := WIRE_CHANNEL_ANNOUNCEMENT,
                  tag := env.towire_channel_id m.channel_id, payload := announce }] ∧
      (handle_channel_announcement env s announce).broadcasts.log.length =
        s.broadcasts.log.length + 1) ∧
    (((add_channel_direction s m.node_id_1 m.node_id_2 0 m.channel_id announce).2 = false ∧
      (add_channel_direction
        (add_channel_direction s m.node_id_1 m.node_id_2 0 m.channel_id announce).1
        m.node_id_2 m.node_id_1 1 m.channel_id announce).2 = false) →
      (handle_channel_announcement env s announce).broadcasts = s.broadcasts) := by
  rw [handle_channel_announcement_eq env s announce m hparse]
  split
  · rename_i hc
    refine ⟨rfl, rfl, ?_, ?_⟩
    · intro h
      rcases h with h | h
      · rw [hc.1] at h; exact absurd h (by decide)
      · rw [hc.2] at h; exact absurd h (by decide)
    · intro _
      simp only [add_channel_direction_broadcasts]
  · rename_i hc
    refine ⟨rfl, rfl, ?_, ?_⟩
    · intro _
      simp [queue_broadcast]
    · intro h
      exact absurd h hc

/-- Witness of C5 (scenario 1): the announcement of (100,2,0) between identities 7
and 9 on the empty state creates both edges and one broadcast entry; replayed on
the resulting state, neither call reports a change and the log is unchanged. -/
theorem channel_announcement_forward_gating_witness :
    (scenario1.connections.map (fun c => (c.src, c.dst, c.channel_id, c.flags)) =
      [(⟨7⟩, ⟨9⟩, ⟨100, 2, 0⟩, 0), (⟨9⟩, ⟨7⟩, ⟨100, 2, 0⟩, 1)] ∧
     scenario1.broadcasts.log =
      [some ⟨WIRE_CHANNEL_ANNOUNCEMENT, [100, 2, 0], [256, 100, 2, 0, 7, 9]⟩]) ∧
    (handle_channel_announcement sample_env scenario1 [256, 100, 2, 0, 7, 9]).broadcasts =
      scenario1.broadcasts :=
  ⟨⟨by decide,
    ((channel_announcement_forward_gating sample_env empty_rstate [256, 100, 2, 0, 7, 9]
      { node_signature_1 := ⟨[]⟩, node_signature_2 := ⟨[]⟩,
        bitcoin_signature_1 := ⟨[]⟩, bitcoin_signature_2 := ⟨[]⟩,
        channel_id := ⟨100, 2, 0⟩, node_id_1 := ⟨7⟩, node_id_2 := ⟨9⟩,
        bitcoin_key_1 := ⟨7⟩, bitcoin_key_2 := ⟨9⟩, features := [] }
      rfl).2.2.1 (Or.inl (by decide))).1⟩,
   (channel_announcement_forward_gating sample_env scenario1 [256, 100, 2, 0, 7, 9]
      { node_signature_1 := ⟨[]⟩, node_signature_2 := ⟨[]⟩,
        bitcoin_signature_1 := ⟨[]⟩, bitcoin_signature_2 := ⟨[]⟩,
        channel_id := ⟨100, 2, 0⟩, node_id_1 := ⟨7⟩, node_id_2 := ⟨9⟩,
        bitcoin_key_1 := ⟨7⟩, bitcoin_key_2 := ⟨9⟩, features := [] }
      rfl).2.2.2 ⟨by decide, by decide⟩⟩

/-- C6. Idempotence of channel_announcement: running the handler twice in a row on
the same bytes gives the same routing state (topology store and broadcast log)
as running it once; in particular the second run enqueues nothing. -/
theorem channel_announcement_idempotent (env : wire_env) (s : routing_state)
    (announce : bytes) :
    handle_channel_announcement env (handle_channel_announcement env s announce) announce =
      handle_channel_announcement env s announce := by
  cases hparse : env.fromwire_channel_announcement announce with
  | none => simp [handle_channel_announcement, hparse]
  | some m =>
    obtain ⟨⟨c0, h0⟩, ⟨c1, h1⟩⟩ := handle_channel_announcement_edges env s announce m hparse
    rw [handle_channel_announcement_eq env (handle_channel_announcement env s announce)
      announce m hparse]
    rw [add_channel_direction_present _ m.node_id_1 m.node_id_2 0 m.channel_id announce c0 h0]
    simp only []
    rw [add_channel_direction_present _ m.node_id_2 m.node_id_1 1 m.channel_id announce c1 h1]
    simp

/-! ## The timestamp of an edge over sequences of inbound messages -/

theorem handle_node_announcement_connections (env : wire_env) (s : routing_state)
    (node_ann : bytes) :
    (handle_node_announcement env s node_ann).connections = s.connections := by
  unfold handle_node_announcement
  simp only []
  split
  · rfl
  · split
    · rfl
    · split
      · rfl
      · split
        · rfl
        · split <;> rfl

theorem get_connection_by_cid_congr (s t : routing_state)
    (h : t.connections = s.connections) (cid : channel_id) (d : Nat) :
    get_connection_by_cid t cid d = get_connection_by_cid s cid d := by
  unfold get_connection_by_cid
  rw [h]

/-- Every inbound handler keeps an edge that exists and does not lower its stored
timestamp. -/
theorem submit_inbound_keeps_timestamp (env : wire_env) (cid : channel_id) (d T : Nat)
    (s : routing_state) (call : inbound)
    (h : ∃ c, get_connection_by_cid s cid d = some c ∧ T ≤ c.last_timestamp) :
    ∃ c, get_connection_by_cid (submit_inbound env s call) cid d = some c ∧
      T ≤ c.last_timestamp := by
  obtain ⟨c, hc, hT⟩ := h
  cases call with
  | channel_announcement msg =>
    simp only [submit_inbound]
    cases hparse : env.fromwire_channel_announcement msg with
    | none =>
      refine ⟨c, ?_, hT⟩
      simpa [handle_channel_announcement, hparse] using hc
    | some m =>
      have h1 := add_channel_direction_keeps s m.node_id_1 m.node_id_2 0 m.channel_id msg
        cid d c hc
      have h2 := add_channel_direction_keeps _ m.node_id_2 m.node_id_1 1 m.channel_id msg
        cid d c h1
      refine ⟨c, ?_, hT⟩
      rw [handle_channel_announcement_eq env s msg m hparse]
      split
      · exact h2
      · exact h2
  | channel_update msg =>
    simp only [submit_inbound]
    cases hparse : env.fromwire_channel_update msg with
    | none =>
      refine ⟨c, ?_, hT⟩
      simpa [handle_channel_update, hparse] using hc
    | some m =>
      by_cases hkey : m.channel_id = cid ∧ m.flags &&& 1 = d
      · obtain ⟨hk1, hk2⟩ := hkey
        subst hk1
        subst hk2
        by_cases hts : c.last_timestamp < m.timestamp
        · refine ⟨_, get_connection_after_update env s msg m c hparse hc hts, ?_⟩
          simp only []
          omega
        · rw [handle_channel_update_reject_old env s msg m c hparse hc (Nat.not_lt.mp hts)]
          exact ⟨c, hc, hT⟩
      · rw [get_connection_other_after_update env s msg m cid d hparse hkey]
        exact ⟨c, hc, hT⟩
  | node_announcement msg =>
    simp only [submit_inbound]
    rw [get_connection_by_cid_congr s _ (handle_node_announcement_connections env s msg)]
    exact ⟨c, hc, hT⟩

theorem run_inbound_keeps_timestamp (env : wire_env) (cid : channel_id) (d T : Nat)
    (calls : List inbound) (s : routing_state)
    (h : ∃ c, get_connection_by_cid s cid d = some c ∧ T ≤ c.last_timestamp) :
    ∃ c, get_connection_by_cid (run_inbound env s calls) cid d = some c ∧
      T ≤ c.last_timestamp := by
  induction calls generalizing s with
  | nil => exact h
  | cons call rest ih =>
    exact ih (submit_inbound env s call) (submit_inbound_keeps_timestamp env cid d T s call h)

/-- C1. Monotonic timestamp law for channel edges: once `handle_channel_update` has
accepted an update with timestamp T for a key (channel reference, direction),
then after any sequence of calls of the three inbound handlers a channel_update
for the same key whose timestamp is at most T is rejected, whatever its other
fields: the routing state (topology store and broadcast log) is unchanged. -/
theorem channel_update_timestamp_monotonic (env : wire_env) (s : routing_state)
    (update : bytes) (m : channel_update_msg) (c : node_connection)
    (hparse : env.fromwire_channel_update update = some m)
    (hedge : get_connection_by_cid s m.channel_id (m.flags &&& 1) = some c)
    (hts : c.last_timestamp < m.timestamp)
    (calls : List inbound)
    (later : bytes) (m1 : channel_update_msg)
    (hparse1 : env.fromwire_channel_update later = some m1)
    (hcid : m1.channel_id = m.channel_id)
    (hdir : m1.flags &&& 1 = m.flags &&& 1)
    (hold : m1.timestamp ≤ m.timestamp) :
    handle_channel_update env
      (run_inbound env (handle_channel_update env s update) calls) later =
      run_inbound env (handle_channel_update env s update) calls := by
  have h0 : ∃ c1, get_connection_by_cid (handle_channel_update env s update)
      m.channel_id (m.flags &&& 1) = some c1 ∧ m.timestamp ≤ c1.last_timestamp :=
    ⟨_, get_connection_after_update env s update m c hparse hedge hts, Nat.le_refl _⟩
  obtain ⟨c1, hc1, hT⟩ := run_inbound_keeps_timestamp env m.channel_id (m.flags &&& 1)
    m.timestamp calls _ h0
  rw [← hcid, ← hdir] at hc1
  exact handle_channel_update_reject_old env _ later m1 c1 hparse1 hc1 (Nat.le_trans hold hT)

/-! ## The drain loop -/

theorem first_live_none (l : List (Option queued_message)) (i : Nat)
    (h : first_live l i = none) :
    l.filterMap (fun o => o.map (fun msg => (msg.type, msg.payload))) = [] ∧
    ∀ cur, cursor_after_aux l i cur = cur := by
  induction l generalizing i with
  | nil => exact ⟨rfl, fun _ => rfl⟩
  | cons o rest ih =>
    cases o with
    | none =>
      simp only [first_live] at h
      obtain ⟨h1, h2⟩ := ih (i + 1) h
      refine ⟨?_, fun cur => ?_⟩
      · simpa using h1
      · simp only [cursor_after_aux]
        exact h2 cur
    | some m => simp [first_live] at h

theorem first_live_some (l : List (Option queued_message)) (i : Nat) (m : queued_message)
    (j : Nat) (h : first_live l i = some (m, j)) :
    i < j ∧ j ≤ i + l.length ∧
    l.filterMap (fun o => o.map (fun msg => (msg.type, msg.payload))) =
      (m.type, m.payload) ::
        (l.drop (j - i)).filterMap (fun o => o.map (fun msg => (msg.type, msg.payload))) ∧
    ∀ cur, cursor_after_aux l i cur = cursor_after_aux (l.drop (j - i)) j j := by
  induction l generalizing i with
  | nil => simp [first_live] at h
  | cons o rest ih =>
    cases o with
    | none =>
      simp only [first_live] at h
      obtain ⟨h1, h2, h3, h4⟩ := ih (i + 1) h
      have hji : j - i = (j - (i + 1)) + 1 := by omega
      refine ⟨by omega, by simp only [List.length_cons]; omega, ?_, fun cur => ?_⟩
      · rw [hji]
        simpa using h3
      · rw [hji]
        simp only [cursor_after_aux, List.drop_succ_cons]
        exact h4 cur
    | some m0 =>
      simp only [first_live, Option.some.injEq, Prod.mk.injEq] at h
      obtain ⟨hm, hj⟩ := h
      subst hm
      subst hj
      have hji : i + 1 - i = 1 := by omega
      refine ⟨by omega, by simp only [List.length_cons]; omega, ?_, fun cur => ?_⟩
      · rw [hji]
        simp
      · rw [hji]
        simp [cursor_after_aux]

/-- With more fuel than the log has slots, the drain loop of one peer ends; it has
queued every pending packet in log order and left the cursor current. -/
theorem drain_peer_complete (bstate : broadcast_state) (fuel : Nat) (p : peer)
    (hfuel : bstate.log.length - p.broadcast_index < fuel) :
    drain_peer fuel bstate p =
      some { p with
        broadcast_index := cursor_after bstate.log p.broadcast_index,
        outpkt := p.outpkt ++ pending_packets bstate.log p.broadcast_index } := by
  induction fuel generalizing p with
  | zero => omega
  | succ fuel ih =>
    unfold drain_peer
    cases hnext : next_broadcast_message bstate p.broadcast_index with
    | none =>
      unfold next_broadcast_message at hnext
      obtain ⟨h1, h2⟩ := first_live_none _ _ hnext
      simp only [pending_packets, cursor_after, h1, h2, List.append_nil]
    | some r =>
      obtain ⟨msg, idx⟩ := r
      unfold next_broadcast_message at hnext
      obtain ⟨h1, h2, h3, h4⟩ := first_live_some _ _ msg idx hnext
      simp only [List.length_drop] at h2
      have hdrop : List.drop (idx - p.broadcast_index) (List.drop p.broadcast_index bstate.log) =
          List.drop idx bstate.log := by
        rw [List.drop_drop]
        congr 1
        omega
      rw [hdrop] at h3 h4
      simp only []
      rw [ih (queue_pkt_nested { p with broadcast_index := idx } msg.type msg.payload)
        (by simp only [queue_pkt_nested]; omega)]
      simp only [queue_pkt_nested, pending_packets, cursor_after, h3, h4, List.append_assoc,
        List.singleton_append]

theorem process_peers_complete (env : wire_env) (bstate : broadcast_state) (fuel : Nat)
    (hfuel : bstate.log.length < fuel) (ps : List peer) :
    process_peers env fuel bstate ps = some (ps.map (drain_result env bstate)) := by
  induction ps with
  | nil => rfl
  | cons p rest ih =>
    unfold process_peers
    cases hn : env.state_is_normal p.state with
    | false => simp [ih, drain_result, hn]
    | true =>
      rw [drain_peer_complete bstate fuel p (by omega)]
      simp [ih, drain_result, hn]

/-- With more fuel than the log has slots, `process_broadcast_queue` returns, and
every peer is in its `drain_result`. -/
theorem process_broadcast_queue_complete (env : wire_env) (fuel : Nat)
    (dstate : lightningd_state) (hfuel : dstate.rstate.broadcasts.log.length < fuel) :
    process_broadcast_queue env fuel dstate =
      some { dstate with
        peers := dstate.peers.map (drain_result env dstate.rstate.broadcasts) } := by
  unfold process_broadcast_queue
  rw [process_peers_complete env _ fuel hfuel]
  rfl

/-! ## Dedup of channel_update broadcasts -/

theorem retire_eq_some (t : wire_type) (tag : bytes) (o : Option queued_message)
    (e : queued_message) (h : retire t tag o = some e) :
    o = some e ∧ ¬ (e.type = t ∧ e.tag = tag) := by
  cases o with
  | none => simp [retire] at h
  | some m =>
    by_cases hm : m.type = t ∧ m.tag = tag
    · simp [retire, hm] at h
    · simp only [retire, hm, if_false, Option.some.injEq] at h
      subst h
      exact ⟨rfl, hm⟩

theorem queue_broadcast_keeps_tags (env : wire_env) (b : broadcast_state) (t : wire_type)
    (tag payload : bytes)
    (hnew : tag_matches_payload env { type := t, tag := tag, payload := payload } = true)
    (h : tags_match_payloads env b = true) :
    tags_match_payloads env (queue_broadcast b t tag payload) = true := by
  unfold tags_match_payloads at h ⊢
  rw [List.all_eq_true] at h ⊢
  intro o ho
  simp only [queue_broadcast, List.mem_append, List.mem_map, List.mem_singleton] at ho
  rcases ho with ⟨o0, ho0, hret⟩ | ho
  · cases o with
    | none => rfl
    | some e =>
      obtain ⟨h1, _⟩ := retire_eq_some _ _ o0 e hret
      subst h1
      exact h _ ho0
  · subst ho
    exact hnew

/-- Every inbound handler keeps the log filed by payload: the hypothesis of the
dedup law holds in every state reached from the empty one through the handlers. -/
theorem submit_inbound_keeps_tags (env : wire_env) (s : routing_state) (call : inbound)
    (h : tags_match_payloads env s.broadcasts = true) :
    tags_match_payloads env (submit_inbound env s call).broadcasts = true := by
  cases call with
  | channel_announcement msg =>
    simp only [submit_inbound]
    cases hparse : env.fromwire_channel_announcement msg with
    | none => simpa [handle_channel_announcement, hparse] using h
    | some m =>
      rw [handle_channel_announcement_eq env s msg m hparse]
      split
      · simpa only [add_channel_direction_broadcasts] using h
      · exact queue_broadcast_keeps_tags env _ _ _ _ rfl h
  | channel_update msg =>
    simp only [submit_inbound]
    cases hparse : env.fromwire_channel_update msg with
    | none => simpa [handle_channel_update, hparse] using h
    | some m =>
      cases hedge : get_connection_by_cid s m.channel_id (m.flags &&& 1) with
      | none => rw [handle_channel_update_reject_unknown env s msg m hparse hedge]; exact h
      | some c =>
        by_cases hts : c.last_timestamp < m.timestamp
        · rw [handle_channel_update_accept_eq env s msg m c hparse hedge hts]
          refine queue_broadcast_keeps_tags env _ _ _ _ ?_ h
          simp [tag_matches_payload, hparse]
        · rw [handle_channel_update_reject_old env s msg m c hparse hedge (Nat.not_lt.mp hts)]
          exact h
  | node_announcement msg =>
    simp only [submit_inbound]
    unfold handle_node_announcement
    simp only []
    split
    · exact h
    · split
      · exact h
      · split
        · exact h
        · split
          · exact h
          · split
            · exact h
            · exact queue_broadcast_keeps_tags env _ _ _ _ rfl h

theorem run_inbound_keeps_tags (env : wire_env) (calls : List inbound) (s : routing_state)
    (h : tags_match_payloads env s.broadcasts = true) :
    tags_match_payloads env (run_inbound env s calls).broadcasts = true := by
  induction calls generalizing s with
  | nil => exact h
  | cons call rest ih => exact ih (submit_inbound env s call) (submit_inbound_keeps_tags env s call h)

/-- Witness of C1: on scenario 1 an update with timestamp 1000 is accepted for
(100,2,0) direction 0; after a replayed channel_announcement, a node_announcement,
an update of the other direction and a newer update of the same direction, an
update for direction 0 with timestamp 1000 and other fields (flags 2, other
fees) is rejected. -/
theorem channel_update_timestamp_monotonic_witness :
    handle_channel_update sample_env
      (run_inbound sample_env
        (handle_channel_update sample_env scenario1 [258, 100, 2, 0, 1000, 0, 6, 1, 10, 20])
        [inbound.channel_announcement [256, 100, 2, 0, 7, 9],
         inbound.node_announcement (sample_node_announcement ⟨7⟩ 50 [1, 2, 3] [10, 9735]),
         inbound.channel_update [258, 100, 2, 0, 999, 1, 7, 2, 11, 21],
         inbound.channel_update [258, 100, 2, 0, 1005, 0, 6, 1, 10, 20]])
      [258, 100, 2, 0, 1000, 2, 9, 9, 9, 9] =
      run_inbound sample_env
        (handle_channel_update sample_env scenario1 [258, 100, 2, 0, 1000, 0, 6, 1, 10, 20])
        [inbound.channel_announcement [256, 100, 2, 0, 7, 9],
         inbound.node_announcement (sample_node_announcement ⟨7⟩ 50 [1, 2, 3] [10, 9735]),
         inbound.channel_update [258, 100, 2, 0, 999, 1, 7, 2, 11, 21],
         inbound.channel_update [258, 100, 2, 0, 1005, 0, 6, 1, 10, 20]] :=
  channel_update_timestamp_monotonic sample_env scenario1
    [258, 100, 2, 0, 1000, 0, 6, 1, 10, 20]
    { signature := ⟨[]⟩, channel_id := ⟨100, 2, 0⟩, timestamp := 1000, flags := 0,
      expiry := 6, htlc_minimum_msat := 1, fee_base_msat := 10,
      fee_proportional_millionths := 20 }
    { src := ⟨7⟩, dst := ⟨9⟩, channel_id := ⟨100, 2, 0⟩, flags := 0,
      last_timestamp := 0, delay := 0, htlc_minimum_msat := 0, base_fee := 0,
      proportional_fee := 0, active := false,
      channel_announcement := some [256, 100, 2, 0, 7, 9], channel_update := none }
    rfl (by decide) (by decide)
    [inbound.channel_announcement [256, 100, 2, 0, 7, 9],
     inbound.node_announcement (sample_node_announcement ⟨7⟩ 50 [1, 2, 3] [10, 9735]),
     inbound.channel_update [258, 100, 2, 0, 999, 1, 7, 2, 11, 21],
     inbound.channel_update [258, 100, 2, 0, 1005, 0, 6, 1, 10, 20]]
    [258, 100, 2, 0, 1000, 2, 9, 9, 9, 9]
    { signature := ⟨[]⟩, channel_id := ⟨100, 2, 0⟩, timestamp := 1000, flags := 2,
      expiry := 9, htlc_minimum_msat := 9, fee_base_msat := 9,
      fee_proportional_millionths := 9 }
    rfl rfl (by decide) (by decide)

/-! ## Rejections that leave the state unchanged -/

/-- C12. Authentication failure: a node_announcement that parses and whose
signature does not verify, under the claimed identity, against the double hash
of the bytes from offset 66 on, is rejected: the routing state is the one before
the call, whatever the node records and timestamps are (the check comes before
the lookup and the timestamp comparison). -/
theorem node_announcement_bad_signature_rejected (env : wire_env) (s : routing_state)
    (node_ann : bytes) (m : node_announcement_msg)
    (hparse : env.fromwire_node_announcement node_ann = some m)
    (hsig : env.check_signed_hash (env.sha256_double (node_ann.drop 66))
      m.signature m.node_id = false) :
    handle_node_announcement env s node_ann = s :=
  handle_node_announcement_reject_sig env s node_ann m hparse hsig

/-- Witness of C12: on scenario 1 the record of identity 7 exists with timestamp
0, the message has timestamp 50 and a decodable address, but carries the zero
signature; the state is unchanged. -/
theorem node_announcement_bad_signature_rejected_witness :
    (get_node scenario1 ⟨7⟩).map node.last_timestamp = some 0 ∧
    sample_env.read_ip [10, 9735] = some ([10], 9735) ∧
    handle_node_announcement sample_env scenario1 unsigned_sample_announcement = scenario1 :=
  ⟨by decide, rfl,
   node_announcement_bad_signature_rejected sample_env scenario1
     unsigned_sample_announcement
     { signature := zero_signature, timestamp := 50, node_id := ⟨7⟩,
       rgb_color := [1, 2, 3], alias_ := [], features := [], addresses := [10, 9735] }
     (by decide) (by decide)⟩

/-- C15. Malformed input is a no-op: when the parser of a handler fails on the
bytes, that handler returns the routing state (topology store and broadcast
log) it was given. -/
theorem malformed_input_noop (env : wire_env) (s : routing_state) (msg : bytes) :
    (env.fromwire_channel_announcement msg = none →
      handle_channel_announcement env s msg = s) ∧
    (env.fromwire_channel_update msg = none →
      handle_channel_update env s msg = s) ∧
    (env.fromwire_node_announcement msg = none →
      handle_node_announcement env s msg = s) := by
  refine ⟨fun h => ?_, fun h => ?_, fun h => ?_⟩
  · simp [handle_channel_announcement, h]
  · simp [handle_channel_update, h]
  · simp [handle_node_announcement, h]

/-- Witness of C15: the bytes `[0, 1]` fail all three sample parsers; each handler
leaves scenario 2 unchanged. -/
theorem malformed_input_noop_witness :
    handle_channel_announcement sample_env scenario2 [0, 1] = scenario2 ∧
    handle_channel_update sample_env scenario2 [0, 1] = scenario2 ∧
    handle_node_announcement sample_env scenario2 [0, 1] = scenario2 :=
  ⟨(malformed_input_noop sample_env scenario2 [0, 1]).1 rfl,
   (malformed_input_noop sample_env scenario2 [0, 1]).2.1 rfl,
   (malformed_input_noop sample_env scenario2 [0, 1]).2.2 (by decide)⟩

/-! ## Frame of `handle_channel_update` -/

theorem update_first_map {α β : Type} (p : α → Bool) (f : α → α) (g : α → β)
    (hg : ∀ x, g (f x) = g x) (l : List α) :
    (update_first p f l).map g = l.map g := by
  induction l with
  | nil => simp [update_first]
  | cons x xs ih =>
    by_cases hx : p x = true
    · simp [update_first, hx, hg]
    · simp only [Bool.not_eq_true] at hx
      simp [update_first, hx, ih]

theorem update_first_get_other {α : Type} (p : α → Bool) (f : α → α) (l : List α)
    (i : Nat) (x : α) (hi : l[i]? = some x) (hx : p x = false) :
    (update_first p f l)[i]? = some x := by
  induction l generalizing i with
  | nil => simp at hi
  | cons y ys ih =>
    by_cases hy : p y = true
    · cases i with
      | zero =>
        simp only [List.getElem?_cons_zero, Option.some.injEq] at hi
        subst hi
        rw [hx] at hy
        exact absurd hy (by decide)
      | succ j =>
        simp only [update_first, hy, if_true, List.getElem?_cons_succ] at hi ⊢
        exact hi
    · simp only [Bool.not_eq_true] at hy
      cases i with
      | zero =>
        simp only [update_first, hy, List.getElem?_cons_zero] at hi ⊢
        simpa using hi
      | succ j =>
        simp only [update_first, hy, List.getElem?_cons_succ] at hi ⊢
        simpa using ih j hi

/-- C16. Frame of channel_update: an accepted channel_update for (channel
reference, d), d = bit 0 of flags, leaves every node record as it was, keeps
the list of edge keys (reference, flags, source, destination) as it was, leaves
the lookup of every other key (the opposite direction included) as it was, and
leaves every edge of another key in place, unchanged; the edge it rewrites is
the one of key (reference, flags and 1), whatever the other bits of flags. -/
theorem channel_update_frame (env : wire_env) (s : routing_state)
    (update : bytes) (m : channel_update_msg) (c : node_connection)
    (hparse : env.fromwire_channel_update update = some m)
    (hedge : get_connection_by_cid s m.channel_id (m.flags &&& 1) = some c)
    (hts : c.last_timestamp < m.timestamp) :
    (handle_channel_update env s update).nodes = s.nodes ∧
    (handle_channel_update env s update).connections.map
        (fun e => (e.channel_id, e.flags, e.src, e.dst)) =
      s.connections.map (fun e => (e.channel_id, e.flags, e.src, e.dst)) ∧
    (∀ cid d, ¬ (m.channel_id = cid ∧ m.flags &&& 1 = d) →
      get_connection_by_cid (handle_channel_update env s update) cid d =
        get_connection_by_cid s cid d) ∧
    (∀ (i : Nat) (e : node_connection), s.connections[i]? = some e →
      ¬ (e.channel_id = m.channel_id ∧ e.flags &&& 1 = m.flags &&& 1) →
      (handle_channel_update env s update).connections[i]? = some e) ∧
    (∃ e, get_connection_by_cid (handle_channel_update env s update)
        m.channel_id (m.flags &&& 1) = some e ∧ e.last_timestamp = m.timestamp ∧
        e.channel_update = some update) := by
  refine ⟨?_, ?_, ?_, ?_, ?_⟩
  · rw [handle_channel_update_accept_eq env s update m c hparse hedge hts]
  · rw [handle_channel_update_accept_eq env s update m c hparse hedge hts]
    simp only []
    refine update_first_map _ _ _ ?_ _
    intro x
    rfl
  · intro cid d hne
    exact get_connection_other_after_update env s update m cid d hparse hne
  · intro i e hi hne
    rw [handle_channel_update_accept_eq env s update m c hparse hedge hts]
    simp only []
    refine update_first_get_other _ _ _ i e hi ?_
    simpa [-Nat.and_one_is_mod] using hne
  · exact ⟨_, get_connection_after_update env s update m c hparse hedge hts, rfl, rfl⟩

/-- Witness of C16: on scenario 1 an update with flags 3 (bit 0 set, bit 1 set) and
timestamp 1000 rewrites the direction-1 edge of (100,2,0) and leaves the
direction-0 edge and the two node records as they were. -/
theorem channel_update_frame_witness :
    (handle_channel_update sample_env scenario1
      [258, 100, 2, 0, 1000, 3, 6, 1, 10, 20]).nodes = scenario1.nodes ∧
    get_connection_by_cid (handle_channel_update sample_env scenario1
      [258, 100, 2, 0, 1000, 3, 6, 1, 10, 20]) ⟨100, 2, 0⟩ 0 =
      get_connection_by_cid scenario1 ⟨100, 2, 0⟩ 0 ∧
    (get_connection_by_cid (handle_channel_update sample_env scenario1
      [258, 100, 2, 0, 1000, 3, 6, 1, 10, 20]) ⟨100, 2, 0⟩ 1).map
      (fun e => (e.src, e.dst, e.flags, e.last_timestamp)) = some (⟨9⟩, ⟨7⟩, 1, 1000) :=
  have h := channel_update_frame sample_env scenario1
    [258, 100, 2, 0, 1000, 3, 6, 1, 10, 20]
    { signature := ⟨[]⟩, channel_id := ⟨100, 2, 0⟩, timestamp := 1000, flags := 3,
      expiry := 6, htlc_minimum_msat := 1, fee_base_msat := 10,
      fee_proportional_millionths := 20 }
    { src := ⟨9⟩, dst := ⟨7⟩, channel_id := ⟨100, 2, 0⟩, flags := 1,
      last_timestamp := 0, delay := 0, htlc_minimum_msat := 0, base_fee := 0,
      proportional_fee := 0, active := false,
      channel_announcement := some [256, 100, 2, 0, 7, 9], channel_update := none }
    rfl (by decide) (by decide)
  ⟨h.1, h.2.2.1 ⟨100, 2, 0⟩ 0 (by decide), by decide⟩

/-! ## The drain task -/

theorem pending_packets_none (b : broadcast_state) (cursor : Nat)
    (h : next_broadcast_message b cursor = none) :
    pending_packets b.log cursor = [] ∧ cursor_after b.log cursor = cursor := by
  unfold next_broadcast_message at h
  obtain ⟨h1, h2⟩ := first_live_none _ _ h
  exact ⟨h1, h2 cursor⟩

theorem pending_packets_some (b : broadcast_state) (cursor : Nat) (msg : queued_message)
    (idx : Nat) (h : next_broadcast_message b cursor = some (msg, idx)) :
    cursor < idx ∧ idx ≤ b.log.length ∧
    pending_packets b.log cursor = (msg.type, msg.payload) :: pending_packets b.log idx ∧
    cursor_after b.log cursor = cursor_after b.log idx := by
  unfold next_broadcast_message at h
  obtain ⟨h1, h2, h3, h4⟩ := first_live_some _ _ msg idx h
  simp only [List.length_drop] at h2
  have hdrop : List.drop (idx - cursor) (List.drop cursor b.log) = List.drop idx b.log := by
    rw [List.drop_drop]
    congr 1
    omega
  rw [hdrop] at h3 h4
  have hlen : idx ≤ b.log.length := by
    by_cases hc : cursor ≤ b.log.length
    · omega
    · have hnil : List.drop cursor b.log = [] := List.drop_eq_nil_of_le (by omega)
      rw [hnil] at h
      simp [first_live] at h
  exact ⟨h1, hlen, h3, h4 cursor⟩

/-- The cursor that a complete drain leaves is current: a further
`next_broadcast_message` returns nothing. -/
theorem cursor_after_current (b : broadcast_state) (n : Nat) :
    ∀ cursor, b.log.length - cursor ≤ n →
      next_broadcast_message b (cursor_after b.log cursor) = none := by
  induction n with
  | zero =>
    intro cursor hle
    cases hnext : next_broadcast_message b cursor with
    | none =>
      rw [(pending_packets_none b cursor hnext).2]
      exact hnext
    | some r =>
      obtain ⟨msg, idx⟩ := r
      obtain ⟨h1, h2, _, _⟩ := pending_packets_some b cursor msg idx hnext
      omega
  | succ n ih =>
    intro cursor hle
    cases hnext : next_broadcast_message b cursor with
    | none =>
      rw [(pending_packets_none b cursor hnext).2]
      exact hnext
    | some r =>
      obtain ⟨msg, idx⟩ := r
      obtain ⟨h1, h2, _, h4⟩ := pending_packets_some b cursor msg idx hnext
      rw [h4]
      exact ih idx (by omega)

/-- C18. Drain task: with more fuel than the log has slots, one run of
`process_broadcast_queue` returns. A peer in the normal state has been queued
the packets of the live slots from its cursor on, in log order, which are the
results of successive `next_broadcast_message` calls (nothing when the call
returns none; else the returned message followed by what is pending from the
returned cursor), and its cursor is current: a further call returns none. A
peer that is not in the normal state is as before. -/
theorem drain_task (env : wire_env) (fuel : Nat) (dstate : lightningd_state)
    (hfuel : dstate.rstate.broadcasts.log.length < fuel) :
    process_broadcast_queue env fuel dstate =
      some { dstate with
        peers := dstate.peers.map (drain_result env dstate.rstate.broadcasts) } ∧
    (∀ p, env.state_is_normal p.state = true →
      drain_result env dstate.rstate.broadcasts p =
        { p with
          broadcast_index := cursor_after dstate.rstate.broadcasts.log p.broadcast_index,
          outpkt := p.outpkt ++
            pending_packets dstate.rstate.broadcasts.log p.broadcast_index } ∧
      next_broadcast_message dstate.rstate.broadcasts
        (drain_result env dstate.rstate.broadcasts p).broadcast_index = none) ∧
    (∀ p, env.state_is_normal p.state = false →
      drain_result env dstate.rstate.broadcasts p = p) ∧
    (∀ cursor, next_broadcast_message dstate.rstate.broadcasts cursor = none →
      pending_packets dstate.rstate.broadcasts.log cursor = []) ∧
    (∀ cursor msg idx,
      next_broadcast_message dstate.rstate.broadcasts cursor = some (msg, idx) →
      pending_packets dstate.rstate.broadcasts.log cursor =
        (msg.type, msg.payload) :: pending_packets dstate.rstate.broadcasts.log idx) := by
  refine ⟨process_broadcast_queue_complete env fuel dstate hfuel, ?_, ?_, ?_, ?_⟩
  · intro p hn
    have hres : drain_result env dstate.rstate.broadcasts p =
        { p with
          broadcast_index := cursor_after dstate.rstate.broadcasts.log p.broadcast_index,
          outpkt := p.outpkt ++
            pending_packets dstate.rstate.broadcasts.log p.broadcast_index } := by
      simp [drain_result, hn]
    refine ⟨hres, ?_⟩
    rw [hres]
    exact cursor_after_current dstate.rstate.broadcasts _ p.broadcast_index (Nat.le_refl _)
  · intro p hn
    simp [drain_result, hn]
  · intro cursor h
    exact (pending_packets_none _ cursor h).1
  · intro cursor msg idx h
    exact (pending_packets_some _ cursor msg idx h).2.2.1

/-- Witness of C18: on the scenario 2 daemon (log: channel_announcement, a retired
slot, channel_update) with fuel 4, the peer in the normal state is queued the
two live payloads in log order and its cursor becomes 3; the other peer keeps
cursor 0 and an empty queue. -/
theorem drain_task_witness :
    (process_broadcast_queue sample_env 4 scenario2_daemon).map
      (fun d => d.peers.map (fun p => (p.broadcast_index, p.outpkt))) =
      some [(3, [(WIRE_CHANNEL_ANNOUNCEMENT, [256, 100, 2, 0, 7, 9]),
                 (WIRE_CHANNEL_UPDATE, [258, 100, 2, 0, 999, 1, 7, 2, 11, 21])]),
            (0, [])] ∧
    next_broadcast_message scenario2.broadcasts 3 = none :=
  ⟨by rw [(drain_task sample_env 4 scenario2_daemon (by decide)).1]; decide, by decide⟩

/-! ## Verbatim forwarding -/

theorem add_channel_direction_new (s : routing_state) (src dst : pubkey) (d : Nat)
    (cid : channel_id) (ann : bytes) (h : get_connection_by_cid s cid d = none)
    (hd : d &&& 1 = d) :
    get_connection_by_cid (add_channel_direction s src dst d cid ann).1 cid d =
      some { src := src, dst := dst, channel_id := cid, flags := d,
             last_timestamp := 0, delay := 0, htlc_minimum_msat := 0,
             base_fee := 0, proportional_fee := 0, active := false,
             channel_announcement := some ann, channel_update := none } := by
  rw [add_channel_direction_absent s src dst d cid ann h]
  unfold get_connection_by_cid at h ⊢
  simp only [List.find?_append, h]
  simp [List.find?, hd, -Nat.and_one_is_mod]

theorem add_channel_direction_lookup_other (s : routing_state) (src dst : pubkey) (d : Nat)
    (cid : channel_id) (ann : bytes) (cid1 : channel_id) (d1 : Nat)
    (hne : ¬ (cid1 = cid ∧ d1 = d)) (hd : d &&& 1 = d) :
    get_connection_by_cid (add_channel_direction s src dst d cid ann).1 cid1 d1 =
      get_connection_by_cid s cid1 d1 := by
  cases h0 : get_connection_by_cid s cid d with
  | some c0 => rw [add_channel_direction_present s src dst d cid ann c0 h0]
  | none =>
    rw [add_channel_direction_absent s src dst d cid ann h0]
    unfold get_connection_by_cid
    simp only [List.find?_append]
    have hq : (decide (cid = cid1) && decide (d &&& 1 = d1)) = false := by
      rw [hd]
      by_cases h1 : cid = cid1
      · by_cases h2 : d = d1
        · exact absurd ⟨h1.symm, h2.symm⟩ hne
        · simp [h2]
      · simp [h1]
    simp only [List.find?, hq]
    cases List.find? (fun c => decide (c.channel_id = cid1) && decide (c.flags &&& 1 = d1))
      s.connections <;> rfl

/-- After a channel_announcement that parses, an edge of its reference that was
absent before stores the received bytes as its raw announcement. -/
theorem handle_channel_announcement_raw (env : wire_env) (s : routing_state)
    (announce : bytes) (m : channel_announcement_msg)
    (hparse : env.fromwire_channel_announcement announce = some m) (d : Nat)
    (hd : d = 0 ∨ d = 1) (habs : get_connection_by_cid s m.channel_id d = none) :
    ∃ c, get_connection_by_cid (handle_channel_announcement env s announce) m.channel_id d =
      some c ∧ c.channel_announcement = some announce := by
  have hconn : ∀ cid1 d1, get_connection_by_cid (handle_channel_announcement env s announce)
      cid1 d1 = get_connection_by_cid
        (add_channel_direction
          (add_channel_direction s m.node_id_1 m.node_id_2 0 m.channel_id announce).1
          m.node_id_2 m.node_id_1 1 m.channel_id announce).1 cid1 d1 := by
    intro cid1 d1
    rw [handle_channel_announcement_eq env s announce m hparse]
    split <;> rfl
  rw [hconn]
  rcases hd with hd | hd
  · subst hd
    exact ⟨_, add_channel_direction_keeps _ m.node_id_2 m.node_id_1 1 m.channel_id announce
      m.channel_id 0 _
      (add_channel_direction_new s m.node_id_1 m.node_id_2 0 m.channel_id announce habs
        (by decide)), rfl⟩
  · subst hd
    have h1 : get_connection_by_cid
        (add_channel_direction s m.node_id_1 m.node_id_2 0 m.channel_id announce).1
        m.channel_id 1 = none := by
      rw [add_channel_direction_lookup_other s m.node_id_1 m.node_id_2 0 m.channel_id announce
        m.channel_id 1 (by simp) (by decide)]
      exact habs
    exact ⟨_, add_channel_direction_new _ m.node_id_2 m.node_id_1 1 m.channel_id announce h1
      (by decide), rfl⟩

/-- A channel_announcement that parses and finds one of its edges absent is
enqueued with the received bytes as payload. -/
theorem handle_channel_announcement_payload (env : wire_env) (s : routing_state)
    (announce : bytes) (m : channel_announcement_msg)
    (hparse : env.fromwire_channel_announcement announce = some m)
    (habs : get_connection_by_cid s m.channel_id 0 = none ∨
      get_connection_by_cid s m.channel_id 1 = none) :
    (handle_channel_announcement env s announce).broadcasts.log.getLast? =
      some (some { type := WIRE_CHANNEL_ANNOUNCEMENT,
                   tag := env.towire_channel_id m.channel_id, payload := announce }) := by
  rw [handle_channel_announcement_eq env s announce m hparse]
  have hrep : ¬ ((add_channel_direction s m.node_id_1 m.node_id_2 0 m.channel_id announce).2 =
        false ∧
      (add_channel_direction
        (add_channel_direction s m.node_id_1 m.node_id_2 0 m.channel_id announce).1
        m.node_id_2 m.node_id_1 1 m.channel_id announce).2 = false) := by
    rintro ⟨h1, h2⟩
    rw [add_channel_direction_report] at h1 h2
    rw [add_channel_direction_lookup_other s m.node_id_1 m.node_id_2 0 m.channel_id announce
      m.channel_id 1 (by simp) (by decide)] at h2
    rcases habs with h | h
    · rw [h] at h1
      exact absurd h1 (by decide)
    · rw [h] at h2
      exact absurd h2 (by decide)
  rw [if_neg hrep]
  simp [queue_broadcast]

/-- C11. Verbatim forwarding: whenever a handler accepts the bytes `msg`, the entry
it enqueues has `msg` itself as payload and the edge or node record it writes
stores `msg` itself as raw bytes (for a channel_announcement: each edge it
creates, and the entry when at least one edge was absent); no parsed field is
serialized again. `process_broadcast_queue`, given more fuel than the log has
slots, returns with every peer in the normal state queued the type and the
payload of each live slot from its cursor on, unchanged and in log order, and
every other peer as before. -/
theorem verbatim_forwarding (env : wire_env) (s : routing_state) (msg : bytes) :
    (∀ m, env.fromwire_channel_announcement msg = some m →
      (∀ d, d = 0 ∨ d = 1 → get_connection_by_cid s m.channel_id d = none →
        ∃ c, get_connection_by_cid (handle_channel_announcement env s msg) m.channel_id d =
          some c ∧ c.channel_announcement = some msg) ∧
      (get_connection_by_cid s m.channel_id 0 = none ∨
        get_connection_by_cid s m.channel_id 1 = none →
        (handle_channel_announcement env s msg).broadcasts.log.getLast? =
          some (some { type := WIRE_CHANNEL_ANNOUNCEMENT,
                       tag := env.towire_channel_id m.channel_id, payload := msg }))) ∧
    (∀ m c, env.fromwire_channel_update msg = some m →
      get_connection_by_cid s m.channel_id (m.flags &&& 1) = some c →
      c.last_timestamp < m.timestamp →
      (∃ e, get_connection_by_cid (handle_channel_update env s msg) m.channel_id
          (m.flags &&& 1) = some e ∧ e.channel_update = some msg) ∧
      (handle_channel_update env s msg).broadcasts.log.getLast? =
        some (some { type := WIRE_CHANNEL_UPDATE,
                     tag := env.towire_channel_id m.channel_id, payload := msg })) ∧
    (∀ m n host port, env.fromwire_node_announcement msg = some m →
      env.check_signed_hash (env.sha256_double (msg.drop 66)) m.signature m.node_id = true →
      get_node s m.node_id = some n → n.last_timestamp < m.timestamp →
      env.read_ip m.addresses = some (host, port) →
      (∃ r, get_node (handle_node_announcement env s msg) m.node_id = some r ∧
          r.node_announcement = some msg) ∧
      (handle_node_announcement env s msg).broadcasts.log.getLast? =
        some (some { type := WIRE_NODE_ANNOUNCEMENT,
                     tag := env.towire_pubkey m.node_id, payload := msg })) ∧
    (∀ (dstate : lightningd_state) (fuel : Nat),
      dstate.rstate.broadcasts.log.length < fuel →
      process_broadcast_queue env fuel dstate =
        some { dstate with
          peers := dstate.peers.map (fun p =>
            if env.state_is_normal p.state = true then
              { p with
                broadcast_index :=
                  cursor_after dstate.rstate.broadcasts.log p.broadcast_index,
                outpkt := p.outpkt ++
                  (dstate.rstate.broadcasts.log.drop p.broadcast_index).filterMap
                    (fun o => o.map (fun e => (e.type, e.payload))) }
            else p) }) := by
  refine ⟨?_, ?_, ?_, ?_⟩
  · intro m hparse
    exact ⟨fun d hd habs => handle_channel_announcement_raw env s msg m hparse d hd habs,
      fun habs => handle_channel_announcement_payload env s msg m hparse habs⟩
  · intro m c hparse hedge hts
    refine ⟨⟨_, get_connection_after_update env s msg m c hparse hedge hts, rfl⟩, ?_⟩
    rw [handle_channel_update_accept_eq env s msg m c hparse hedge hts]
    simp [queue_broadcast]
  · intro m n host port hparse hsig hnode hts hip
    rw [handle_node_announcement_accept_eq env s msg m n host port hparse hsig hnode hts hip]
    refine ⟨?_, ?_⟩
    · have hget : get_node
          { s with
            nodes := update_first (fun x => decide (x.id = m.node_id))
              (fun x => { x with
                last_timestamp := m.timestamp,
                hostname := some host,
                port := port,
                rgb_color := m.rgb_color,
                node_announcement := some msg })
              s.nodes,
            broadcasts := queue_broadcast s.broadcasts WIRE_NODE_ANNOUNCEMENT
              (env.towire_pubkey m.node_id) msg } m.node_id =
          some { n with
            last_timestamp := m.timestamp,
            hostname := some host,
            port := port,
            rgb_color := m.rgb_color,
            node_announcement := some msg } := by
        refine Eq.trans (get_node_update_first s m.node_id _ ?_ _) ?_
        · intro x
          rfl
        · rw [hnode]
          rfl
      exact ⟨_, hget, rfl⟩
    · simp [queue_broadcast]
  · intro dstate fuel hfuel
    rw [process_broadcast_queue_complete env fuel dstate hfuel]
    congr 2
    apply List.map_congr_left
    intro p _
    cases hn : env.state_is_normal p.state <;> simp [drain_result, hn, pending_packets]

/-- Witness of C11: the channel_announcement of scenario 1 on the empty state, a
channel_update on scenario 1 and a signed node_announcement on scenario 1 are
each enqueued and stored with the received bytes; on the scenario 2 daemon
`process_broadcast_queue` queues for the peer in the normal state the bytes of
the channel_announcement and of the second channel_update as they were
received. -/
theorem verbatim_forwarding_witness :
    scenario1.broadcasts.log.getLast? =
      some (some ⟨WIRE_CHANNEL_ANNOUNCEMENT, [100, 2, 0], [256, 100, 2, 0, 7, 9]⟩) ∧
    (handle_channel_update sample_env scenario1
      [258, 100, 2, 0, 1000, 0, 6, 1, 10, 20]).broadcasts.log.getLast? =
      some (some ⟨WIRE_CHANNEL_UPDATE, [100, 2, 0],
        [258, 100, 2, 0, 1000, 0, 6, 1, 10, 20]⟩) ∧
    scenario4.broadcasts.log.getLast? =
      some (some ⟨WIRE_NODE_ANNOUNCEMENT, [7],
        sample_node_announcement ⟨7⟩ 50 [1, 2, 3] [10, 9735]⟩) ∧
    (process_broadcast_queue sample_env 4 scenario2_daemon).map
      (fun d => d.peers.map (fun p => p.outpkt)) =
      some [[(WIRE_CHANNEL_ANNOUNCEMENT, [256, 100, 2, 0, 7, 9]),
             (WIRE_CHANNEL_UPDATE, [258, 100, 2, 0, 999, 1, 7, 2, 11, 21])],
            []] :=
  ⟨((verbatim_forwarding sample_env empty_rstate [256, 100, 2, 0, 7, 9]).1
      { node_signature_1 := ⟨[]⟩, node_signature_2 := ⟨[]⟩,
        bitcoin_signature_1 := ⟨[]⟩, bitcoin_signature_2 := ⟨[]⟩,
        channel_id := ⟨100, 2, 0⟩, node_id_1 := ⟨7⟩, node_id_2 := ⟨9⟩,
        bitcoin_key_1 := ⟨7⟩, bitcoin_key_2 := ⟨9⟩, features := [] }
      rfl).2 (Or.inl (by decide)),
   ((verbatim_forwarding sample_env scenario1 [258, 100, 2, 0, 1000, 0, 6, 1, 10, 20]).2.1
      { signature := ⟨[]⟩, channel_id := ⟨100, 2, 0⟩, timestamp := 1000, flags := 0,
        expiry := 6, htlc_minimum_msat := 1, fee_base_msat := 10,
        fee_proportional_millionths := 20 }
      { src := ⟨7⟩, dst := ⟨9⟩, channel_id := ⟨100, 2, 0⟩, flags := 0,
        last_timestamp := 0, delay := 0, htlc_minimum_msat := 0, base_fee := 0,
        proportional_fee := 0, active := false,
        channel_announcement := some [256, 100, 2, 0, 7, 9], channel_update := none }
      rfl (by decide) (by decide)).2,
   ((verbatim_forwarding sample_env scenario1
      (sample_node_announcement ⟨7⟩ 50 [1, 2, 3] [10, 9735])).2.2.1
      { signature := sample_sign ⟨7⟩ [50, 7, 1, 2, 3, 10, 9735],
        timestamp := 50, node_id := ⟨7⟩, rgb_color := [1, 2, 3],
        alias_ := [], features := [], addresses := [10, 9735] }
      { id := ⟨7⟩, last_timestamp := 0, hostname := none, port := 0,
        rgb_color := [0, 0, 0], node_announcement := none }
      [10] 9735 rfl (by decide) (by decide) (by decide) rfl).2,
   by
    rw [(verbatim_forwarding sample_env empty_rstate []).2.2.2 scenario2_daemon 4
      (by decide)]
    decide⟩

/-! ## The self-announcement producer -/

theorem with_broadcasts_self (d : lightningd_state) :
    with_broadcasts d d.rstate.broadcasts = d := rfl

theorem enqueue_all_append (b : broadcast_state) (l1 l2 : List queued_message) :
    enqueue_all b (l1 ++ l2) = enqueue_all (enqueue_all b l1) l2 := by
  simp [enqueue_all, List.foldl_append]

theorem broadcast_channel_pair_eq (env : wire_env) (d : lightningd_state)
    (b : broadcast_state) (p : peer) (now : Nat) :
    broadcast_channel_update env (broadcast_channel_announcement env (with_broadcasts d b) p)
      p now = with_broadcasts d (enqueue_all b (channel_entries env d now p)) := rfl

theorem broadcast_node_announcement_eq (env : wire_env) (d : lightningd_state)
    (b : broadcast_state) (now : Nat) :
    broadcast_node_announcement env (with_broadcasts d b) now =
      with_broadcasts d (enqueue_all b (node_entries env d now)) := by
  unfold broadcast_node_announcement node_entries
  cases hip : d.external_ip with
  | none => simp [with_broadcasts, hip, enqueue_all]
  | some ip =>
    by_cases hport : d.portnum = 0
    · simp [with_broadcasts, hip, hport, enqueue_all]
    · simp [with_broadcasts, hip, hport, enqueue_all, build_node_announcement,
        unsigned_node_announcement]

theorem announce_fold (env : wire_env) (d : lightningd_state) (now : Nat) (ps : List peer) :
    ∀ (b : broadcast_state) (n : Nat),
      ps.foldl (announce_step env now) (with_broadcasts d b, n) =
        (with_broadcasts d (enqueue_all b
          (((ps.filter (fun p => env.state_is_normal p.state)).map
            (channel_entries env d now)).flatten)),
         n + (ps.filter (fun p => env.state_is_normal p.state)).length) := by
  induction ps with
  | nil => intro b n; rfl
  | cons p rest ih =>
    intro b n
    cases hn : env.state_is_normal p.state with
    | false =>
      simp only [List.foldl_cons, announce_step, hn, Bool.false_eq_true, if_false,
        List.filter_cons_of_neg, not_false_eq_true]
      exact ih b n
    | true =>
      simp only [List.foldl_cons, announce_step, hn, if_true, List.filter_cons_of_pos,
        List.map_cons, List.flatten_cons, List.length_cons]
      rw [broadcast_channel_pair_eq, ih, enqueue_all_append]
      congr 1
      omega

/-- One run of `announce` enqueues the entries of `announce_entries`, in order. -/
theorem announce_eq (env : wire_env) (d : lightningd_state) (now : Nat) :
    announce env d now =
      with_broadcasts d (enqueue_all d.rstate.broadcasts (announce_entries env d now)) := by
  have hfold := announce_fold env d now d.peers d.rstate.broadcasts 0
  rw [with_broadcasts_self] at hfold
  unfold announce announce_entries
  simp only [hfold, Nat.zero_add]
  by_cases hany : d.peers.any (fun p => env.state_is_normal p.state) = true
  · have hpos : (d.peers.filter (fun p => env.state_is_normal p.state)).length > 0 := by
      rw [List.any_eq_true] at hany
      obtain ⟨p, hp, hn⟩ := hany
      exact List.length_pos_of_mem (List.mem_filter.mpr ⟨hp, hn⟩)
    rw [if_pos hpos, if_pos hany, broadcast_node_announcement_eq, enqueue_all_append]
  · have hzero : ¬ (d.peers.filter (fun p => env.state_is_normal p.state)).length > 0 := by
      intro hpos
      obtain ⟨p, hp⟩ := List.exists_mem_of_length_pos hpos
      rw [List.mem_filter] at hp
      exact hany (List.any_eq_true.mpr ⟨p, hp.1, hp.2⟩)
    rw [if_neg hzero, if_neg hany, List.append_nil]

/-- One call of `announce_channel` enqueues the two channel entries of the peer it
is given and then the node entry, without testing the state of any peer. -/
theorem announce_channel_eq (env : wire_env) (d : lightningd_state) (p : peer) (now : Nat) :
    announce_channel env d p now =
      with_broadcasts d (enqueue_all d.rstate.broadcasts
        (channel_entries env d now p ++ node_entries env d now)) := by
  unfold announce_channel
  have h := broadcast_channel_pair_eq env d d.rstate.broadcasts p now
  rw [with_broadcasts_self] at h
  rw [h, broadcast_node_announcement_eq, enqueue_all_append]

theorem node_entries_has_node_announcement (env : wire_env) (d : lightningd_state)
    (now : Nat) :
    (∃ e ∈ node_entries env d now, e.type = WIRE_NODE_ANNOUNCEMENT) ↔
      (d.external_ip.isSome = true ∧ d.portnum ≠ 0) := by
  unfold node_entries
  cases hip : d.external_ip with
  | none => simp
  | some ip =>
    by_cases hport : d.portnum = 0
    · simp [hport]
    · simp [hport]

theorem channel_entries_no_node_announcement (env : wire_env) (d : lightningd_state)
    (now : Nat) (p : peer) :
    ∀ e ∈ channel_entries env d now p, e.type ≠ WIRE_NODE_ANNOUNCEMENT := by
  intro e he
  simp only [channel_entries, List.mem_cons, List.mem_singleton, List.not_mem_nil,
    or_false] at he
  rcases he with he | he <;> subst he <;> simp

theorem announce_entries_has_node_announcement (env : wire_env) (d : lightningd_state)
    (now : Nat) :
    (∃ e ∈ announce_entries env d now, e.type = WIRE_NODE_ANNOUNCEMENT) ↔
      (d.peers.any (fun p => env.state_is_normal p.state) = true ∧
        d.external_ip.isSome = true ∧ d.portnum ≠ 0) := by
  unfold announce_entries
  constructor
  · rintro ⟨e, he, hty⟩
    rw [List.mem_append] at he
    rcases he with he | he
    · rw [List.mem_flatten] at he
      obtain ⟨l, hl, hel⟩ := he
      rw [List.mem_map] at hl
      obtain ⟨p, _, hp⟩ := hl
      subst hp
      exact absurd hty (channel_entries_no_node_announcement env d now p e hel)
    · by_cases hany : d.peers.any (fun p => env.state_is_normal p.state) = true
      · rw [if_pos hany] at he
        exact ⟨hany, (node_entries_has_node_announcement env d now).mp ⟨e, he, hty⟩⟩
      · rw [if_neg hany] at he
        simp at he
  · rintro ⟨hany, haddr⟩
    obtain ⟨e, he, hty⟩ := (node_entries_has_node_announcement env d now).mpr haddr
    refine ⟨e, ?_, hty⟩
    rw [List.mem_append, if_pos hany]
    exact Or.inr he

/-- C17. Re-announce task: one run of `announce` enqueues, in order, the entries of
`announce_entries`: for each peer in the normal state, in list order, its
channel_announcement then its channel_update, nothing for the other peers,
and last the node_announcement when at least one peer was in the normal state
(and an external address is configured). A node_announcement is among them if
and only if some peer is in the normal state, an external address is present
and the port is non-zero. With no peer in the normal state the daemon state is
unchanged. -/
theorem announce_task (env : wire_env) (d : lightningd_state) (now : Nat) :
    announce env d now =
      with_broadcasts d (enqueue_all d.rstate.broadcasts
        (((d.peers.filter (fun p => env.state_is_normal p.state)).map
            (fun p => [
              { type := WIRE_CHANNEL_ANNOUNCEMENT,
                tag := env.towire_channel_id (peer_channel_id env p),
                payload := build_channel_announcement env d p },
              { type := WIRE_CHANNEL_UPDATE,
                tag := env.towire_channel_id (peer_channel_id env p),
                payload := build_channel_update env d p now }])).flatten ++
          (if d.peers.any (fun p => env.state_is_normal p.state) then
            node_entries env d now
           else []))) ∧
    ((∃ e ∈ announce_entries env d now, e.type = WIRE_NODE_ANNOUNCEMENT) ↔
      (d.peers.any (fun p => env.state_is_normal p.state) = true ∧
        d.external_ip.isSome = true ∧ d.portnum ≠ 0)) ∧
    (d.peers.any (fun p => env.state_is_normal p.state) = false →
      announce env d now = d) := by
  refine ⟨announce_eq env d now, announce_entries_has_node_announcement env d now, ?_⟩
  intro hnone
  rw [announce_eq]
  have hfilter : d.peers.filter (fun p => env.state_is_normal p.state) = [] := by
    rw [List.filter_eq_nil_iff]
    intro p hp hn
    have hany : d.peers.any (fun p => env.state_is_normal p.state) = true :=
      List.any_eq_true.mpr ⟨p, hp, hn⟩
    rw [hnone] at hany
    exact absurd hany (by decide)
  simp [announce_entries, hfilter, hnone, enqueue_all, with_broadcasts]

/-- Witness of C17: on the sample daemon (peers 9 normal, 5 not normal, 3 normal,
address configured) one run enqueues the pair of peer 9, the pair of peer 3 and
the node_announcement; without an address the node_announcement is missing;
with no peer in the normal state nothing is enqueued. -/
theorem announce_task_witness :
    (announce sample_env sample_daemon 1000).rstate.broadcasts.log.map
      (fun o => o.map (fun e => (e.type, e.tag))) =
      [some (WIRE_CHANNEL_ANNOUNCEMENT, [100, 2, 0]), some (WIRE_CHANNEL_UPDATE, [100, 2, 0]),
       some (WIRE_CHANNEL_ANNOUNCEMENT, [300, 1, 0]), some (WIRE_CHANNEL_UPDATE, [300, 1, 0]),
       some (WIRE_NODE_ANNOUNCEMENT, [7])] ∧
    (announce sample_env hidden_daemon 1000).rstate.broadcasts.log.map
      (fun o => o.map (fun e => (e.type, e.tag))) =
      [some (WIRE_CHANNEL_ANNOUNCEMENT, [100, 2, 0]), some (WIRE_CHANNEL_UPDATE, [100, 2, 0]),
       some (WIRE_CHANNEL_ANNOUNCEMENT, [300, 1, 0]), some (WIRE_CHANNEL_UPDATE, [300, 1, 0])] ∧
    announce sample_env idle_daemon 1000 = idle_daemon :=
  ⟨by decide, by decide, (announce_task sample_env idle_daemon 1000).2.2 (by decide)⟩

theorem node_entries_configured (env : wire_env) (d : lightningd_state) (now : Nat)
    (ip : bytes) (hip : d.external_ip = some ip) (hport : d.portnum ≠ 0) :
    node_entries env d now =
      [{ type := WIRE_NODE_ANNOUNCEMENT, tag := env.towire_pubkey d.id,
         payload := build_node_announcement env d ip now }] := by
  simp [node_entries, hip, hport]

theorem node_entries_unconfigured (env : wire_env) (d : lightningd_state) (now : Nat)
    (h : d.external_ip = none ∨ d.portnum = 0) :
    node_entries env d now = [] := by
  unfold node_entries
  cases hip : d.external_ip with
  | none => rfl
  | some ip =>
    rcases h with h | h
    · rw [hip] at h
      exact absurd h (by simp)
    · simp [h]

theorem enqueue_all_snoc (b : broadcast_state) (l : List queued_message)
    (e : queued_message) :
    enqueue_all b (l ++ [e]) = queue_broadcast (enqueue_all b l) e.type e.tag e.payload := by
  rw [enqueue_all_append]
  rfl

/-- C13. Self-announcement gating. One run of `announce` ends with the enqueue of a
node_announcement for the local node (tag: the serialized local identity)
when some peer is in the normal state, external_ip is present and the port is
non-zero; when no peer is in the normal state, or external_ip is absent, or the
port is zero, it enqueues the channel entries of the peers in the normal state
and no node_announcement. `announce_channel`, called for a peer of the daemon
that is in the normal state (so an active channel exists), ends with the
enqueue of a node_announcement when external_ip is present and the port is
non-zero; when external_ip is absent or the port is zero it enqueues the two
channel entries of that peer and no node_announcement. No channel entry has
the type node_announcement. -/
theorem node_announcement_gating (env : wire_env) (d : lightningd_state) (now : Nat) :
    (∀ ip, d.peers.any (fun q => env.state_is_normal q.state) = true →
      d.external_ip = some ip → d.portnum ≠ 0 →
      announce env d now =
        with_broadcasts d
          (queue_broadcast
            (enqueue_all d.rstate.broadcasts
              ((d.peers.filter (fun q => env.state_is_normal q.state)).map
                (channel_entries env d now)).flatten)
            WIRE_NODE_ANNOUNCEMENT (env.towire_pubkey d.id)
            (build_node_announcement env d ip now))) ∧
    ((d.peers.any (fun q => env.state_is_normal q.state) = false ∨
        d.external_ip = none ∨ d.portnum = 0) →
      announce env d now =
        with_broadcasts d
          (enqueue_all d.rstate.broadcasts
            ((d.peers.filter (fun q => env.state_is_normal q.state)).map
              (channel_entries env d now)).flatten)) ∧
    (∀ p ip, p ∈ d.peers → env.state_is_normal p.state = true →
      d.external_ip = some ip → d.portnum ≠ 0 →
      d.peers.any (fun q => env.state_is_normal q.state) = true ∧
      announce_channel env d p now =
        with_broadcasts d
          (queue_broadcast
            (enqueue_all d.rstate.broadcasts (channel_entries env d now p))
            WIRE_NODE_ANNOUNCEMENT (env.towire_pubkey d.id)
            (build_node_announcement env d ip now))) ∧
    (∀ p, (d.external_ip = none ∨ d.portnum = 0) →
      announce_channel env d p now =
        with_broadcasts d
          (enqueue_all d.rstate.broadcasts (channel_entries env d now p))) ∧
    (∀ p, ∀ e ∈ channel_entries env d now p, e.type ≠ WIRE_NODE_ANNOUNCEMENT) := by
  refine ⟨?_, ?_, ?_, ?_, ?_⟩
  · intro ip hany hip hport
    rw [announce_eq]
    unfold announce_entries
    rw [if_pos hany, node_entries_configured env d now ip hip hport, enqueue_all_snoc]
  · intro h
    rw [announce_eq]
    unfold announce_entries
    rcases h with h | h
    · rw [h]
      simp
    · rw [node_entries_unconfigured env d now h]
      simp
  · intro p ip hp hn hip hport
    refine ⟨List.any_eq_true.mpr ⟨p, hp, hn⟩, ?_⟩
    rw [announce_channel_eq, node_entries_configured env d now ip hip hport, enqueue_all_snoc]
  · intro p h
    rw [announce_channel_eq, node_entries_unconfigured env d now h, List.append_nil]
  · intro p e he
    exact channel_entries_no_node_announcement env d now p e he

/-- Witness of C13: on the sample daemon (address configured, peer 9 in the normal
state) `announce_channel` for peer 9 enqueues its two channel entries and the
node_announcement; without an address it enqueues the two channel entries
only; with an address and no peer in the normal state `announce` enqueues
nothing. -/
theorem node_announcement_gating_witness :
    (announce_channel sample_env sample_daemon peer9 1000).rstate.broadcasts.log.map
      (fun o => o.map (fun e => (e.type, e.tag))) =
      [some (WIRE_CHANNEL_ANNOUNCEMENT, [100, 2, 0]),
       some (WIRE_CHANNEL_UPDATE, [100, 2, 0]),
       some (WIRE_NODE_ANNOUNCEMENT, [7])] ∧
    (announce_channel sample_env hidden_daemon peer9 1000).rstate.broadcasts.log.map
      (fun o => o.map (fun e => (e.type, e.tag))) =
      [some (WIRE_CHANNEL_ANNOUNCEMENT, [100, 2, 0]),
       some (WIRE_CHANNEL_UPDATE, [100, 2, 0])] ∧
    announce sample_env idle_daemon 1000 = idle_daemon :=
  ⟨by
    rw [((node_announcement_gating sample_env sample_daemon 1000).2.2.1 peer9 [10]
      (by decide) (by decide) rfl (by decide)).2]
    decide,
   by
    rw [(node_announcement_gating sample_env hidden_daemon 1000).2.2.2.1 peer9
      (Or.inl rfl)]
    decide,
   by
    rw [(node_announcement_gating sample_env idle_daemon 1000).2.1 (Or.inl (by decide))]
    decide⟩

/-! ## Identity ordering and direction bit -/

/-- C14. Symmetric identity ordering: when `pubkey_cmp` is antisymmetric and is zero
only on equal keys, for two distinct identities A and B the pair (node_id_1,
node_id_2) built at A for peer B is the pair built at B for peer A, node_id_1
compares lower than node_id_2, each side's signature slot is the slot of its
own identity, and the two sides use different slots. Written out on the bytes
each side enqueues: when A compares higher, A serializes the identities (and
bitcoin keys) as (B, A) with its node and bitcoin signatures as the second
signature of each kind and zero as the first, and B serializes (B, A) with its
signatures first and zero second; when A compares lower the roles are swapped
and both serialize (A, B). -/
theorem announcement_order_symmetric (env : wire_env) (A B : pubkey)
    (hanti : ∀ a b, env.pubkey_cmp a b > 0 ↔ env.pubkey_cmp b a < 0)
    (hzero : ∀ a b, env.pubkey_cmp a b = 0 → a = b)
    (hne : A ≠ B) :
    (announcement_slots env A B).1 = (announcement_slots env B A).1 ∧
    env.pubkey_cmp (announcement_slots env A B).1.1 (announcement_slots env A B).1.2 < 0 ∧
    (if (announcement_slots env A B).2 = 0 then (announcement_slots env A B).1.1
      else (announcement_slots env A B).1.2) = A ∧
    (if (announcement_slots env B A).2 = 0 then (announcement_slots env B A).1.1
      else (announcement_slots env B A).1.2) = B ∧
    (announcement_slots env A B).2 ≠ (announcement_slots env B A).2 ∧
    (∀ (dA dB : lightningd_state) (pA pB : peer),
      dA.id = A → pB.id = B → dB.id = B → pA.id = A →
      (env.pubkey_cmp A B > 0 →
        build_channel_announcement env dA pB =
          env.towire_channel_announcement
            zero_signature
            (env.privkey_sign A
              ((env.towire_channel_announcement zero_signature zero_signature
                zero_signature (env.privkey_sign A (env.towire_pubkey A))
                (peer_channel_id env pB) B A B A []).drop 256))
            zero_signature
            (env.privkey_sign A (env.towire_pubkey A))
            (peer_channel_id env pB) B A B A [] ∧
        build_channel_announcement env dB pA =
          env.towire_channel_announcement
            (env.privkey_sign B
              ((env.towire_channel_announcement zero_signature zero_signature
                (env.privkey_sign B (env.towire_pubkey B)) zero_signature
                (peer_channel_id env pA) B A B A []).drop 256))
            zero_signature
            (env.privkey_sign B (env.towire_pubkey B))
            zero_signature
            (peer_channel_id env pA) B A B A []) ∧
      (¬ env.pubkey_cmp A B > 0 →
        build_channel_announcement env dA pB =
          env.towire_channel_announcement
            (env.privkey_sign A
              ((env.towire_channel_announcement zero_signature zero_signature
                (env.privkey_sign A (env.towire_pubkey A)) zero_signature
                (peer_channel_id env pB) A B A B []).drop 256))
            zero_signature
            (env.privkey_sign A (env.towire_pubkey A))
            zero_signature
            (peer_channel_id env pB) A B A B [] ∧
        build_channel_announcement env dB pA =
          env.towire_channel_announcement
            zero_signature
            (env.privkey_sign B
              ((env.towire_channel_announcement zero_signature zero_signature
                zero_signature (env.privkey_sign B (env.towire_pubkey B))
                (peer_channel_id env pA) A B A B []).drop 256))
            zero_signature
            (env.privkey_sign B (env.towire_pubkey B))
            (peer_channel_id env pA) A B A B [])) := by
  have hAB : env.pubkey_cmp A B ≠ 0 := fun h => hne (hzero A B h)
  have hBA : env.pubkey_cmp B A ≠ 0 := fun h => hne (hzero B A h).symm
  have h1 := hanti A B
  have h2 := hanti B A
  refine ⟨?_, ?_, ?_, ?_, ?_, ?_⟩
  · unfold announcement_slots
    by_cases hgt : env.pubkey_cmp A B > 0
    · have hlt : ¬ env.pubkey_cmp B A > 0 := by
        have := h1.mp hgt
        omega
      simp [hgt, hlt]
    · have hgt2 : env.pubkey_cmp B A > 0 := by
        have hlt : env.pubkey_cmp A B < 0 := by omega
        exact h2.mpr hlt
      simp [hgt, hgt2]
  · unfold announcement_slots
    by_cases hgt : env.pubkey_cmp A B > 0
    · simp only [hgt, if_true]
      exact h1.mp hgt
    · simp only [hgt, if_false]
      omega
  · unfold announcement_slots
    by_cases hgt : env.pubkey_cmp A B > 0 <;> simp [hgt]
  · unfold announcement_slots
    by_cases hgt : env.pubkey_cmp B A > 0 <;> simp [hgt]
  · unfold announcement_slots
    by_cases hgt : env.pubkey_cmp A B > 0
    · have hlt : ¬ env.pubkey_cmp B A > 0 := by
        have := h1.mp hgt
        omega
      simp [hgt, hlt]
    · have hgt2 : env.pubkey_cmp B A > 0 := by
        have hlt : env.pubkey_cmp A B < 0 := by omega
        exact h2.mpr hlt
      simp [hgt, hgt2]
  · intro dA dB pA pB hdA hpB hdB hpA
    subst hdA
    subst hdB
    constructor
    · intro hgt
      have hlt : ¬ env.pubkey_cmp dB.id dA.id > 0 := by
        have := h1.mp hgt
        omega
      constructor
      · simp [build_channel_announcement, announcement_slots, set_slot, hpB, hgt]
      · simp [build_channel_announcement, announcement_slots, set_slot, hpA, hlt]
    · intro hgt
      have hgt2 : env.pubkey_cmp dB.id dA.id > 0 := by
        have hlt : env.pubkey_cmp dA.id dB.id < 0 := by omega
        exact h2.mpr hlt
      constructor
      · simp [build_channel_announcement, announcement_slots, set_slot, hpB, hgt]
      · simp [build_channel_announcement, announcement_slots, set_slot, hpA, hgt2]

/-- Witness of C14: identities 7 and 9 under the sample comparison, on the layout
that shows the signatures. Both sides serialize the same reference,
identities and keys (100, 2, 0, 7, 9, 7, 9); identity 7 fills the first node
signature (bytes 2..65) and the first bitcoin signature (bytes 130..193) and
leaves the second ones zero; identity 9 fills the second ones and leaves the
first ones zero. -/
theorem announcement_order_symmetric_witness :
    (announcement_slots slot_env ⟨7⟩ ⟨9⟩).1 = (announcement_slots slot_env ⟨9⟩ ⟨7⟩).1 ∧
    (build_channel_announcement slot_env sample_daemon peer9).drop 258 =
      [100, 2, 0, 7, 9, 7, 9] ∧
    (build_channel_announcement slot_env remote_daemon peer7).drop 258 =
      [100, 2, 0, 7, 9, 7, 9] ∧
    ((build_channel_announcement slot_env sample_daemon peer9).drop 2).take 128 =
      (141 :: List.replicate 63 0) ++ List.replicate 64 0 ∧
    ((build_channel_announcement slot_env sample_daemon peer9).drop 130).take 128 =
      (14 :: List.replicate 63 0) ++ List.replicate 64 0 ∧
    ((build_channel_announcement slot_env remote_daemon peer7).drop 2).take 128 =
      List.replicate 64 0 ++ (143 :: List.replicate 63 0) ∧
    ((build_channel_announcement slot_env remote_daemon peer7).drop 130).take 128 =
      List.replicate 64 0 ++ (18 :: List.replicate 63 0) :=
  have h := announcement_order_symmetric slot_env ⟨7⟩ ⟨9⟩
      (by intro a b; simp only [slot_env, sample_env]; omega)
      (by
        intro a b h
        simp only [slot_env, sample_env] at h
        cases a with
        | mk ka =>
          cases b with
          | mk kb =>
            simp only at h
            have hk : ka = kb := by omega
            rw [hk])
      (by decide)
  have hb := (h.2.2.2.2.2 sample_daemon remote_daemon peer7 peer9 rfl rfl rfl rfl).2
    (by decide)
  ⟨h.1,
   by rw [hb.1]; decide,
   by rw [hb.2]; decide,
   by rw [hb.1]; decide,
   by rw [hb.1]; decide,
   by rw [hb.2]; decide,
   by rw [hb.2]; decide⟩

/-- On a state without the two edges of its reference, a channel_announcement that
parses creates the edge of direction 0 from node_id_1 to node_id_2 and the edge
of direction 1 from node_id_2 to node_id_1. -/
theorem handle_channel_announcement_fresh (env : wire_env) (s : routing_state)
    (announce : bytes) (m : channel_announcement_msg)
    (hparse : env.fromwire_channel_announcement announce = some m)
    (h0 : get_connection_by_cid s m.channel_id 0 = none)
    (h1 : get_connection_by_cid s m.channel_id 1 = none) :
    get_connection_by_cid (handle_channel_announcement env s announce) m.channel_id 0 =
      some { src := m.node_id_1, dst := m.node_id_2, channel_id := m.channel_id, flags := 0,
             last_timestamp := 0, delay := 0, htlc_minimum_msat := 0,
             base_fee := 0, proportional_fee := 0, active := false,
             channel_announcement := some announce, channel_update := none } ∧
    get_connection_by_cid (handle_channel_announcement env s announce) m.channel_id 1 =
      some { src := m.node_id_2, dst := m.node_id_1, channel_id := m.channel_id, flags := 1,
             last_timestamp := 0, delay := 0, htlc_minimum_msat := 0,
             base_fee := 0, proportional_fee := 0, active := false,
             channel_announcement := some announce, channel_update := none } := by
  have hconn : ∀ cid1 d1, get_connection_by_cid (handle_channel_announcement env s announce)
      cid1 d1 = get_connection_by_cid
        (add_channel_direction
          (add_channel_direction s m.node_id_1 m.node_id_2 0 m.channel_id announce).1
          m.node_id_2 m.node_id_1 1 m.channel_id announce).1 cid1 d1 := by
    intro cid1 d1
    rw [handle_channel_announcement_eq env s announce m hparse]
    split <;> rfl
  rw [hconn, hconn]
  have h1b : get_connection_by_cid
      (add_channel_direction s m.node_id_1 m.node_id_2 0 m.channel_id announce).1
      m.channel_id 1 = none := by
    rw [add_channel_direction_lookup_other s m.node_id_1 m.node_id_2 0 m.channel_id announce
      m.channel_id 1 (by simp) (by decide)]
    exact h1
  exact ⟨add_channel_direction_keeps _ m.node_id_2 m.node_id_1 1 m.channel_id announce
      m.channel_id 0 _
      (add_channel_direction_new s m.node_id_1 m.node_id_2 0 m.channel_id announce h0
        (by decide)),
    add_channel_direction_new _ m.node_id_2 m.node_id_1 1 m.channel_id announce h1b
      (by decide)⟩

theorem local_direction_cases (env : wire_env) (L R : pubkey) :
    (local_direction env L R = 0 ∧ ¬ env.pubkey_cmp L R > 0 ∧
      (announcement_slots env L R).1 = (L, R)) ∨
    (local_direction env L R = 1 ∧ env.pubkey_cmp L R > 0 ∧
      (announcement_slots env L R).1 = (R, L)) := by
  unfold local_direction announcement_slots
  by_cases hgt : env.pubkey_cmp L R > 0
  · exact Or.inr (by simp [hgt])
  · exact Or.inl (by simp [hgt])

/-- When the self-built channel_announcement and channel_update parse back to the
reference, identities and flags `local_direction`, then on a state without the
two edges of that reference the handled messages leave the edge of key
(reference, `local_direction`) from the local identity to the peer, rewritten
by the update, and the edge of the other direction untouched. -/
theorem local_edge_of_parsed_messages (env : wire_env) (s : routing_state)
    (d : lightningd_state) (p : peer) (now : Nat)
    (mA : channel_announcement_msg) (mU : channel_update_msg)
    (hA : env.fromwire_channel_announcement (build_channel_announcement env d p) = some mA)
    (hAcid : mA.channel_id = peer_channel_id env p)
    (hA1 : mA.node_id_1 = (announcement_slots env d.id p.id).1.1)
    (hA2 : mA.node_id_2 = (announcement_slots env d.id p.id).1.2)
    (hU : env.fromwire_channel_update (build_channel_update env d p now) = some mU)
    (hUcid : mU.channel_id = peer_channel_id env p)
    (hUflags : mU.flags = local_direction env d.id p.id)
    (hUts : 0 < mU.timestamp)
    (h0 : get_connection_by_cid s (peer_channel_id env p) 0 = none)
    (h1 : get_connection_by_cid s (peer_channel_id env p) 1 = none) :
    (local_direction env d.id p.id = 1 ↔ env.pubkey_cmp d.id p.id > 0) ∧
    (∃ c, get_connection_by_cid
        (handle_channel_announcement env s (build_channel_announcement env d p))
        (peer_channel_id env p) (local_direction env d.id p.id) = some c ∧
      c.src = d.id ∧ c.dst = p.id) ∧
    (∃ c, get_connection_by_cid
        (handle_channel_update env
          (handle_channel_announcement env s (build_channel_announcement env d p))
          (build_channel_update env d p now))
        (peer_channel_id env p) (local_direction env d.id p.id) = some c ∧
      c.src = d.id ∧ c.dst = p.id ∧ c.last_timestamp = mU.timestamp ∧
      c.channel_update = some (build_channel_update env d p now)) ∧
    (∃ c, get_connection_by_cid
        (handle_channel_update env
          (handle_channel_announcement env s (build_channel_announcement env d p))
          (build_channel_update env d p now))
        (peer_channel_id env p) (1 - local_direction env d.id p.id) = some c ∧
      c.src = p.id ∧ c.dst = d.id ∧ c.last_timestamp = 0 ∧ c.channel_update = none) := by
  rw [← hAcid] at h0 h1
  obtain ⟨f0, f1⟩ := handle_channel_announcement_fresh env s _ mA hA h0 h1
  rw [hAcid] at f0 f1
  rcases local_direction_cases env d.id p.id with ⟨hdir, hcmp, hslots⟩ | ⟨hdir, hcmp, hslots⟩
  · rw [hslots] at hA1 hA2
    simp only [] at hA1 hA2
    rw [hA1, hA2] at f0 f1
    have hkey : mU.flags &&& 1 = 0 := by rw [hUflags, hdir]; rfl
    have hedge := (show get_connection_by_cid
        (handle_channel_announcement env s (build_channel_announcement env d p))
        mU.channel_id (mU.flags &&& 1) = get_connection_by_cid
        (handle_channel_announcement env s (build_channel_announcement env d p))
        (peer_channel_id env p) 0 by rw [hUcid, hkey]).trans f0
    have hupd := get_connection_after_update env _ _ mU _ hU hedge hUts
    have hoth := get_connection_other_after_update env
      (handle_channel_announcement env s (build_channel_announcement env d p))
      (build_channel_update env d p now) mU (peer_channel_id env p) 1 hU
      (by rw [hkey]; simp)
    rw [hUcid, hkey] at hupd
    rw [hdir]
    have hopp := hoth.trans f1
    refine ⟨?_, ⟨_, f0, rfl, rfl⟩, ⟨_, hupd, rfl, rfl, rfl, rfl⟩, ⟨_, hopp, rfl, rfl, rfl, rfl⟩⟩
    constructor
    · intro h
      exact absurd h (by decide)
    · intro h
      exact absurd h hcmp
  · rw [hslots] at hA1 hA2
    simp only [] at hA1 hA2
    rw [hA1, hA2] at f0 f1
    have hkey : mU.flags &&& 1 = 1 := by rw [hUflags, hdir]; rfl
    have hedge := (show get_connection_by_cid
        (handle_channel_announcement env s (build_channel_announcement env d p))
        mU.channel_id (mU.flags &&& 1) = get_connection_by_cid
        (handle_channel_announcement env s (build_channel_announcement env d p))
        (peer_channel_id env p) 1 by rw [hUcid, hkey]).trans f1
    have hupd := get_connection_after_update env _ _ mU _ hU hedge hUts
    have hoth := get_connection_other_after_update env
      (handle_channel_announcement env s (build_channel_announcement env d p))
      (build_channel_update env d p now) mU (peer_channel_id env p) 0 hU
      (by rw [hkey]; simp)
    rw [hUcid, hkey] at hupd
    rw [hdir]
    have hopp := hoth.trans f0
    exact ⟨⟨fun _ => hcmp, fun _ => rfl⟩, ⟨_, f1, rfl, rfl⟩, ⟨_, hupd, rfl, rfl, rfl, rfl⟩,
      ⟨_, hopp, rfl, rfl, rfl, rfl⟩⟩

theorem local_direction_le_one (env : wire_env) (L R : pubkey) :
    local_direction env L R ≤ 1 := by
  unfold local_direction
  split <;> omega

/-- C19. Direction-bit consistency. Let the codec parse a serialized
channel_announcement back to its reference and identities, and a serialized
channel_update (timestamp below 2^32, flags 0 or 1) back to its reference,
timestamp and flags. Then the channel_update that `broadcast_channel_update`
builds parses to flags 1 exactly when the local key compares higher than the
peer's (and to flags 0 otherwise); on a state without the two edges of the
reference, after `handle_channel_announcement` on the self-built
channel_announcement the edge that `handle_channel_update` looks up (reference,
flags and 1) goes from the local identity to the peer; after
`handle_channel_update` on the self-built channel_update that edge carries the
update, and the edge of the other direction, from the peer to the local
identity, keeps timestamp 0 and no stored update. -/
theorem direction_bit_selects_local_edge (env : wire_env) (s : routing_state)
    (d : lightningd_state) (p : peer) (now : Nat)
    (hroundA : ∀ ns1 ns2 bs1 bs2 id1 id2 k1 k2, ∃ m,
      env.fromwire_channel_announcement
        (env.towire_channel_announcement ns1 ns2 bs1 bs2 (peer_channel_id env p)
          id1 id2 k1 k2 []) = some m ∧
      m.channel_id = peer_channel_id env p ∧ m.node_id_1 = id1 ∧ m.node_id_2 = id2)
    (hroundU : ∀ sg ts fl ex mn bf pf, ts < 2 ^ 32 → fl ≤ 1 → ∃ m,
      env.fromwire_channel_update
        (env.towire_channel_update sg (peer_channel_id env p) ts fl ex mn bf pf) = some m ∧
      m.channel_id = peer_channel_id env p ∧ m.timestamp = ts ∧ m.flags = fl)
    (hnow : 0 < now % 2 ^ 32)
    (h0 : get_connection_by_cid s (peer_channel_id env p) 0 = none)
    (h1 : get_connection_by_cid s (peer_channel_id env p) 1 = none) :
    ∃ mU, env.fromwire_channel_update (build_channel_update env d p now) = some mU ∧
      mU.channel_id = peer_channel_id env p ∧
      (mU.flags = 1 ↔ env.pubkey_cmp d.id p.id > 0) ∧
      (mU.flags = 0 ↔ ¬ env.pubkey_cmp d.id p.id > 0) ∧
      (∃ c, get_connection_by_cid
          (handle_channel_announcement env s (build_channel_announcement env d p))
          mU.channel_id (mU.flags &&& 1) = some c ∧
        c.src = d.id ∧ c.dst = p.id) ∧
      (∃ c, get_connection_by_cid
          (handle_channel_update env
            (handle_channel_announcement env s (build_channel_announcement env d p))
            (build_channel_update env d p now))
          mU.channel_id (mU.flags &&& 1) = some c ∧
        c.src = d.id ∧ c.dst = p.id ∧ c.last_timestamp = now % 2 ^ 32 ∧
        c.channel_update = some (build_channel_update env d p now)) ∧
      (∃ c, get_connection_by_cid
          (handle_channel_update env
            (handle_channel_announcement env s (build_channel_announcement env d p))
            (build_channel_update env d p now))
          mU.channel_id (1 - (mU.flags &&& 1)) = some c ∧
        c.src = p.id ∧ c.dst = d.id ∧ c.last_timestamp = 0 ∧ c.channel_update = none) := by
  obtain ⟨mA, hA, hAcid, hA1, hA2⟩ := hroundA
    (set_slot (announcement_slots env d.id p.id).2
      (env.privkey_sign d.id
        ((env.towire_channel_announcement zero_signature zero_signature
          (set_slot (announcement_slots env d.id p.id).2
            (env.privkey_sign d.id (env.towire_pubkey d.id))
            (zero_signature, zero_signature)).1
          (set_slot (announcement_slots env d.id p.id).2
            (env.privkey_sign d.id (env.towire_pubkey d.id))
            (zero_signature, zero_signature)).2
          (peer_channel_id env p)
          (announcement_slots env d.id p.id).1.1 (announcement_slots env d.id p.id).1.2
          (announcement_slots env d.id p.id).1.1 (announcement_slots env d.id p.id).1.2
          []).drop 256))
      (zero_signature, zero_signature)).1
    (set_slot (announcement_slots env d.id p.id).2
      (env.privkey_sign d.id
        ((env.towire_channel_announcement zero_signature zero_signature
          (set_slot (announcement_slots env d.id p.id).2
            (env.privkey_sign d.id (env.towire_pubkey d.id))
            (zero_signature, zero_signature)).1
          (set_slot (announcement_slots env d.id p.id).2
            (env.privkey_sign d.id (env.towire_pubkey d.id))
            (zero_signature, zero_signature)).2
          (peer_channel_id env p)
          (announcement_slots env d.id p.id).1.1 (announcement_slots env d.id p.id).1.2
          (announcement_slots env d.id p.id).1.1 (announcement_slots env d.id p.id).1.2
          []).drop 256))
      (zero_signature, zero_signature)).2
    (set_slot (announcement_slots env d.id p.id).2
      (env.privkey_sign d.id (env.towire_pubkey d.id))
      (zero_signature, zero_signature)).1
    (set_slot (announcement_slots env d.id p.id).2
      (env.privkey_sign d.id (env.towire_pubkey d.id))
      (zero_signature, zero_signature)).2
    (announcement_slots env d.id p.id).1.1 (announcement_slots env d.id p.id).1.2
    (announcement_slots env d.id p.id).1.1 (announcement_slots env d.id p.id).1.2
  obtain ⟨mU, hU, hUcid, hUts, hUflags⟩ := hroundU
    (env.privkey_sign d.id
      ((env.towire_channel_update zero_signature (peer_channel_id env p) (now % 2 ^ 32)
        (local_direction env d.id p.id) (d.config.min_htlc_expiry % 2 ^ 16) 1
        d.config.fee_base d.config.fee_per_satoshi).drop 66))
    (now % 2 ^ 32) (local_direction env d.id p.id) (d.config.min_htlc_expiry % 2 ^ 16) 1
    d.config.fee_base d.config.fee_per_satoshi
    (Nat.mod_lt _ (by decide)) (local_direction_le_one env d.id p.id)
  have hA' : env.fromwire_channel_announcement (build_channel_announcement env d p) =
      some mA := hA
  have hU' : env.fromwire_channel_update (build_channel_update env d p now) = some mU := hU
  have hpos : 0 < mU.timestamp := by rw [hUts]; exact hnow
  obtain ⟨hbit, hafter, hupd, hopp⟩ := local_edge_of_parsed_messages env s d p now mA mU
    hA' hAcid hA1 hA2 hU' hUcid hUflags hpos h0 h1
  have hand : mU.flags &&& 1 = local_direction env d.id p.id := by
    rw [hUflags]
    rcases local_direction_cases env d.id p.id with ⟨h, _, _⟩ | ⟨h, _, _⟩ <;> rw [h] <;> rfl
  rw [← hUts]
  refine ⟨mU, hU', hUcid, ?_, ?_, ?_, ?_, ?_⟩
  · rw [hUflags]
    exact hbit
  · rw [hUflags]
    rcases local_direction_cases env d.id p.id with ⟨h, hc, _⟩ | ⟨h, hc, _⟩
    · rw [h]
      exact ⟨fun _ => hc, fun _ => rfl⟩
    · rw [h]
      exact ⟨fun h10 => absurd h10 (by decide), fun hn => absurd hc hn⟩
  · rw [hUcid, hand]
    exact hafter
  · rw [hUcid, hand]
    exact hupd
  · rw [hUcid, hand]
    exact hopp

/-- Witness of C19, both values of the bit, on the empty state with the sample
daemon (identity 7) at clock reading 1000. Peer 3 has the lower key: the
self-built update carries flags 1, and after both messages are handled the
edge of direction 1 goes from 7 to 3 with timestamp 1000 while the edge of
direction 0 goes from 3 to 7 with timestamp 0. Peer 9 has the higher key: flags
0, the edge of direction 0 goes from 7 to 9 with timestamp 1000 and the edge of
direction 1 from 9 to 7 with timestamp 0. -/
theorem direction_bit_selects_local_edge_witness :
    (∃ mU, sample_env.fromwire_channel_update
        (build_channel_update sample_env sample_daemon peer3 1000) = some mU ∧
      (mU.flags = 1 ↔ sample_env.pubkey_cmp sample_daemon.id peer3.id > 0) ∧
      (∃ c, get_connection_by_cid
          (handle_channel_update sample_env
            (handle_channel_announcement sample_env empty_rstate
              (build_channel_announcement sample_env sample_daemon peer3))
            (build_channel_update sample_env sample_daemon peer3 1000))
          mU.channel_id (mU.flags &&& 1) = some c ∧
        c.src = sample_daemon.id ∧ c.dst = peer3.id ∧ c.last_timestamp = 1000 % 2 ^ 32 ∧
        c.channel_update = some (build_channel_update sample_env sample_daemon peer3 1000))) ∧
    (∃ mU, sample_env.fromwire_channel_update
        (build_channel_update sample_env sample_daemon peer9 1000) = some mU ∧
      (mU.flags = 0 ↔ ¬ sample_env.pubkey_cmp sample_daemon.id peer9.id > 0) ∧
      (∃ c, get_connection_by_cid
          (handle_channel_update sample_env
            (handle_channel_announcement sample_env empty_rstate
              (build_channel_announcement sample_env sample_daemon peer9))
            (build_channel_update sample_env sample_daemon peer9 1000))
          mU.channel_id (mU.flags &&& 1) = some c ∧
        c.src = sample_daemon.id ∧ c.dst = peer9.id ∧ c.last_timestamp = 1000 % 2 ^ 32 ∧
        c.channel_update = some (build_channel_update sample_env sample_daemon peer9 1000))) ∧
    build_channel_update sample_env sample_daemon peer3 1000 =
      [258, 300, 1, 0, 1000, 1, 6, 1, 10, 20] ∧
    build_channel_update sample_env sample_daemon peer9 1000 =
      [258, 100, 2, 0, 1000, 0, 6, 1, 10, 20] ∧
    (handle_channel_update sample_env
      (handle_channel_announcement sample_env empty_rstate
        (build_channel_announcement sample_env sample_daemon peer3))
      (build_channel_update sample_env sample_daemon peer3 1000)).connections.map
      (fun c => (c.flags, c.src, c.dst, c.last_timestamp)) =
      [(0, ⟨3⟩, ⟨7⟩, 0), (1, ⟨7⟩, ⟨3⟩, 1000)] ∧
    (handle_channel_update sample_env
      (handle_channel_announcement sample_env empty_rstate
        (build_channel_announcement sample_env sample_daemon peer9))
      (build_channel_update sample_env sample_daemon peer9 1000)).connections.map
      (fun c => (c.flags, c.src, c.dst, c.last_timestamp)) =
      [(0, ⟨7⟩, ⟨9⟩, 1000), (1, ⟨9⟩, ⟨7⟩, 0)] :=
  have h3 := direction_bit_selects_local_edge sample_env empty_rstate sample_daemon peer3 1000
    (fun _ _ _ _ _ _ _ _ => ⟨_, rfl, rfl, rfl, rfl⟩)
    (fun _ _ _ _ _ _ _ _ _ => ⟨_, rfl, rfl, rfl, rfl⟩)
    (by decide) (by decide) (by decide)
  have h9 := direction_bit_selects_local_edge sample_env empty_rstate sample_daemon peer9 1000
    (fun _ _ _ _ _ _ _ _ => ⟨_, rfl, rfl, rfl, rfl⟩)
    (fun _ _ _ _ _ _ _ _ _ => ⟨_, rfl, rfl, rfl, rfl⟩)
    (by decide) (by decide) (by decide)
  ⟨match h3 with
   | ⟨mU, hU, _, hb, _, _, hupd, _⟩ => ⟨mU, hU, hb, hupd⟩,
   match h9 with
   | ⟨mU, hU, _, _, hb, _, hupd, _⟩ => ⟨mU, hU, hb, hupd⟩,
   by decide, by decide, by decide, by decide⟩

/-! ## Sign and verify round trip of the self-built node_announcement -/

/-- The sample serialization of a node_announcement with a 64-byte signature: the
first two bytes are the type, bytes 2..65 are the signature, the rest is the
body. -/
theorem sample_node_announcement_layout (sg : secp256k1_ecdsa_signature) (ts : Nat)
    (id : pubkey) (rgb al ft ad : bytes) (h : sg.data.length = 64) :
    (sample_env.towire_node_announcement sg ts id rgb al ft ad).length =
      66 + (2 + rgb.length + ad.length) ∧
    (sample_env.towire_node_announcement sg ts id rgb al ft ad).take 2 = [1, 1] ∧
    ((sample_env.towire_node_announcement sg ts id rgb al ft ad).drop 2).take 64 = sg.data ∧
    (sample_env.towire_node_announcement sg ts id rgb al ft ad).drop 66 =
      [ts, id.key] ++ rgb ++ ad := by
  have hmsg : sample_env.towire_node_announcement sg ts id rgb al ft ad =
      ([1, 1] ++ sg.data) ++ ([ts, id.key] ++ rgb ++ ad) := by
    simp [sample_env]
  have hlen : ([1, 1] ++ sg.data).length = 66 := by simp [h]
  refine ⟨?_, ?_, ?_, ?_⟩
  · rw [hmsg, List.length_append, hlen]
    simp
    omega
  · rw [hmsg]
    rfl
  · rw [hmsg]
    have h2 : List.drop 2 (([1, 1] ++ sg.data) ++ ([ts, id.key] ++ rgb ++ ad)) =
        sg.data ++ ([ts, id.key] ++ rgb ++ ad) := by
      simp
    rw [h2]
    exact List.take_left' h
  · rw [hmsg]
    exact List.drop_left' hlen

/-- C20. Sign/verify round trip. Let the serialization of a node_announcement keep
the signature inside bytes 2..65 (`signature_field_only`), let `privkey_sign`
return 64-byte signatures, let `check_signed_hash` accept what `privkey_sign`
produced over the same bytes under the local identity, and let the codec parse
a serialized node_announcement back to its signature, identity and timestamp.
Then, with an external address configured, `broadcast_node_announcement`
enqueues its second serialization; that message has the length, the first two
bytes and the bytes from offset 66 on of the zero-signature serialization; it
parses to the local identity, and the check of `handle_node_announcement`
(the parsed signature against the double hash of the bytes from offset 66 on,
under the parsed identity) passes; the handler accepts the message wherever
the local record is older and the address decodes. -/
theorem self_node_announcement_verifies (env : wire_env) (d : lightningd_state)
    (ip : bytes) (now : Nat)
    (hip : d.external_ip = some ip) (hport : d.portnum ≠ 0)
    (hlayout : signature_field_only env)
    (hsiglen : ∀ id body, (env.privkey_sign id body).data.length = 64)
    (hsign : ∀ body, env.check_signed_hash (env.sha256_double body)
      (env.privkey_sign d.id body) d.id = true)
    (hround : ∀ (sg : secp256k1_ecdsa_signature) (ts : Nat) (id : pubkey) (ad : bytes),
      sg.data.length = 64 → ts < 2 ^ 32 → ∃ m,
      env.fromwire_node_announcement
        (env.towire_node_announcement sg ts id [0, 0, 0] (List.replicate 32 0) [] ad) =
          some m ∧
      m.signature = sg ∧ m.node_id = id ∧ m.timestamp = ts) :
    (broadcast_node_announcement env d now).rstate.broadcasts.log.getLast? =
      some (some { type := WIRE_NODE_ANNOUNCEMENT, tag := env.towire_pubkey d.id,
                   payload := build_node_announcement env d ip now }) ∧
    (build_node_announcement env d ip now).length =
      (unsigned_node_announcement env d ip now).length ∧
    (build_node_announcement env d ip now).take 2 =
      (unsigned_node_announcement env d ip now).take 2 ∧
    (build_node_announcement env d ip now).drop 66 =
      (unsigned_node_announcement env d ip now).drop 66 ∧
    ∃ m, env.fromwire_node_announcement (build_node_announcement env d ip now) = some m ∧
      m.node_id = d.id ∧ m.timestamp = now % 2 ^ 32 ∧
      env.check_signed_hash
        (env.sha256_double ((build_node_announcement env d ip now).drop 66))
        m.signature m.node_id = true ∧
      ∀ (s : routing_state) (n : node) (host : bytes) (port : Nat),
        get_node s d.id = some n → n.last_timestamp < now % 2 ^ 32 →
        env.read_ip m.addresses = some (host, port) →
        (handle_node_announcement env s (build_node_announcement env d ip now)).broadcasts =
          queue_broadcast s.broadcasts WIRE_NODE_ANNOUNCEMENT (env.towire_pubkey d.id)
            (build_node_announcement env d ip now) := by
  have hzero : zero_signature.data.length = 64 := by simp [zero_signature]
  have hbuild : build_node_announcement env d ip now =
      env.towire_node_announcement
        (env.privkey_sign d.id ((unsigned_node_announcement env d ip now).drop 66))
        (now % 2 ^ 32) d.id [0, 0, 0] (List.replicate 32 0) []
        (env.write_ip ip d.portnum) := rfl
  have hunsigned : unsigned_node_announcement env d ip now =
      env.towire_node_announcement zero_signature (now % 2 ^ 32) d.id [0, 0, 0]
        (List.replicate 32 0) [] (env.write_ip ip d.portnum) := rfl
  obtain ⟨hl1, hl2, hl3⟩ := hlayout
    (env.privkey_sign d.id ((unsigned_node_announcement env d ip now).drop 66))
    zero_signature (now % 2 ^ 32) d.id [0, 0, 0] (List.replicate 32 0) []
    (env.write_ip ip d.portnum) (hsiglen _ _) hzero
  rw [← hbuild, ← hunsigned] at hl1 hl2 hl3
  obtain ⟨m, hparse, hmsig, hmid, hmts⟩ := hround
    (env.privkey_sign d.id ((unsigned_node_announcement env d ip now).drop 66))
    (now % 2 ^ 32) d.id (env.write_ip ip d.portnum) (hsiglen _ _)
    (Nat.mod_lt _ (by decide))
  rw [← hbuild] at hparse
  have hcheck : env.check_signed_hash
      (env.sha256_double ((build_node_announcement env d ip now).drop 66))
      m.signature m.node_id = true := by
    rw [hl3, hmsig, hmid]
    exact hsign _
  refine ⟨?_, hl1, hl2, hl3, m, hparse, hmid, hmts, hcheck, ?_⟩
  · simp [broadcast_node_announcement, hip, hport, queue_broadcast]
  · intro s n host port hnode hts hread
    rw [← hmid] at hnode
    rw [← hmts] at hts
    rw [handle_node_announcement_accept_eq env s _ m n host port hparse hcheck hnode hts hread,
      hmid]

/-- Witness of C20: the sample daemon (identity 7, address host 10 port 9735) at
clock reading 1000. The enqueued message is the type bytes, the signature of
the body under identity 7, and the body; it is accepted on scenario 1, where
identity 7 has a record with timestamp 0. -/
theorem self_node_announcement_verifies_witness :
    build_node_announcement sample_env sample_daemon [10] 1000 =
      [1, 1] ++ (sample_sign ⟨7⟩ [1000, 7, 0, 0, 0, 10, 9735]).data ++
        [1000, 7, 0, 0, 0, 10, 9735] ∧
    (build_node_announcement sample_env sample_daemon [10] 1000).drop 66 =
      (unsigned_node_announcement sample_env sample_daemon [10] 1000).drop 66 ∧
    (∃ m, sample_env.fromwire_node_announcement
        (build_node_announcement sample_env sample_daemon [10] 1000) = some m ∧
      sample_env.check_signed_hash
        (sample_env.sha256_double
          ((build_node_announcement sample_env sample_daemon [10] 1000).drop 66))
        m.signature m.node_id = true) ∧
    (handle_node_announcement sample_env scenario1
      (build_node_announcement sample_env sample_daemon [10] 1000)).broadcasts =
      queue_broadcast scenario1.broadcasts WIRE_NODE_ANNOUNCEMENT [7]
        (build_node_announcement sample_env sample_daemon [10] 1000) :=
  have h := self_node_announcement_verifies sample_env sample_daemon [10] 1000
    rfl (by decide)
    (by
      intro sg1 sg2 ts id rgb al ft ad h1 h2
      obtain ⟨a1, a2, _, a4⟩ := sample_node_announcement_layout sg1 ts id rgb al ft ad h1
      obtain ⟨b1, b2, _, b4⟩ := sample_node_announcement_layout sg2 ts id rgb al ft ad h2
      exact ⟨a1.trans b1.symm, a2.trans b2.symm, a4.trans b4.symm⟩)
    (by intro id body; simp [sample_env, sample_sign])
    (by intro body; simp [sample_env])
    (by
      intro sg ts id ad h _
      obtain ⟨a1, a2, a3, a4⟩ :=
        sample_node_announcement_layout sg ts id [0, 0, 0] (List.replicate 32 0) [] ad h
      refine ⟨{ signature := sg, timestamp := ts, node_id := id, rgb_color := [0, 0, 0],
                alias_ := [], features := [], addresses := ad }, ?_, rfl, rfl, rfl⟩
      have hlen : 66 ≤ (sample_env.towire_node_announcement sg ts id [0, 0, 0]
          (List.replicate 32 0) [] ad).length := by
        rw [a1]
        omega
      show sample_fromwire_node_announcement _ = _
      unfold sample_fromwire_node_announcement
      rw [if_pos ⟨a2, hlen⟩, a4, a3]
      rfl)
  ⟨by decide, h.2.2.2.1,
   match h.2.2.2.2 with
   | ⟨m, hparse, _, _, hcheck, _⟩ => ⟨m, hparse, hcheck⟩,
   by decide⟩

end P2PAnnounce
